import Mathlib

/-!
# Verification of the takumanken/thesis query subsystem

Shallow embedding of the query-to-SQL compiler, executor post-processing,
cardinality-driven dimension reordering and the rule-based visualization
classifier of the repository (files `application/backend/query_engine.py`,
`application/backend/visualization_recommender.py`,
`application/backend/main.py`), together with proofs settling the frozen
claims about them.

Python strings are modelled as `List Char` (`Str`); Python's `in`,
`str.replace`, `str.strip`, `str.startswith`/`endswith` and `"sep".join`
are given executable Lean counterparts below.
-/

/-- Python strings are modelled as lists of characters. -/
abbrev Str := List Char

/-- Turn a Lean string literal into the `List Char` model. -/
def str (s : String) : Str := s.data

/-- Python's substring test `needle in hay` (`strContains hay needle`). -/
def strContains (hay needle : Str) : Bool :=
  needle.isPrefixOf hay ||
    match hay with
    | [] => false
    | _ :: t => strContains t needle

/-- Characters stripped by Python's `str.strip()` (the ASCII whitespace
the generated SQL can actually contain). -/
def isPySpace (c : Char) : Bool :=
  c = ' ' || c = '\n' || c = '\t' || c = '\r'

/-- Python's `str.strip()`: drop leading and trailing whitespace. -/
def pystrip (s : Str) : Str :=
  ((s.dropWhile isPySpace).reverse.dropWhile isPySpace).reverse

/-- Worker for `pyreplace`, structurally recursive on a character budget
(each step consumes at least one character of the haystack, so a budget of
`hay.length` is never exhausted). -/
def pyreplaceAux (old new : Str) : Nat → Str → Str
  | _, [] => []
  | 0, hay => hay
  | fuel + 1, c :: t =>
    if old ≠ [] ∧ old.isPrefixOf (c :: t) then
      new ++ pyreplaceAux old new fuel ((c :: t).drop old.length)
    else
      c :: pyreplaceAux old new fuel t

/-- Python's `str.replace(old, new)` (replaces every occurrence,
left to right, for a non-empty `old`). -/
def pyreplace (old new : Str) (hay : Str) : Str :=
  pyreplaceAux old new hay.length hay

/-- Python's `"sep".join(fragments)`. -/
def pyjoin (sep : Str) : List Str → Str
  | [] => []
  | [x] => x
  | x :: y :: t => x ++ sep ++ pyjoin sep (y :: t)

/-- Python's `s.split(c, 1)` when it yields two parts: the text before the
first occurrence of `c` and the text after it (`none` if `c` is absent). -/
def splitOnce (c : Char) : Str → Option (Str × Str)
  | [] => none
  | x :: t =>
    if x = c then some ([], t)
    else match splitOnce c t with
      | some (a, b) => some (x :: a, b)
      | none => none

/-- Python's `str.lower()` (the dimension names involved are ASCII). -/
def pylower (s : Str) : Str := s.map Char.toLower

/-- Python's `str(n)` for the non-negative integers appearing here. -/
def natToStr (n : Nat) : Str := (toString n).data

/-- Python's `str(i)` on `int`. -/
def intToStr (i : Int) : Str := (toString i).data

/-! ## Basic lemmas about the string model -/

theorem strContains_spec (hay needle : Str) :
    strContains hay needle = true ↔ needle <:+: hay := by
  induction hay with
  | nil =>
    simp only [strContains, Bool.or_false]
    constructor
    · intro h
      have := List.isPrefixOf_iff_prefix.mp h
      exact this.isInfix
    · intro h
      have : needle = [] := List.eq_nil_of_infix_nil h
      simp [this, List.isPrefixOf_iff_prefix]
  | cons c t ih =>
    simp only [strContains, Bool.or_eq_true, ih]
    constructor
    · rintro (h | h)
      · exact (List.isPrefixOf_iff_prefix.mp h).isInfix
      · exact h.trans (List.infix_cons (List.infix_refl t))
    · intro h
      rcases h with ⟨a, b, hab⟩
      match a, hab with
      | [], hab =>
        left
        rw [List.isPrefixOf_iff_prefix]
        exact ⟨b, by simpa using hab⟩
      | x :: a', hab =>
        right
        refine ⟨a', b, ?_⟩
        have := hab
        simp only [List.cons_append] at this
        exact (List.cons.injEq .. ▸ this).2

theorem strContains_intro {hay needle : Str} (h : needle <:+: hay) :
    strContains hay needle = true :=
  (strContains_spec hay needle).mpr h

theorem infix_of_strContains {hay needle : Str} (h : strContains hay needle = true) :
    needle <:+: hay :=
  (strContains_spec hay needle).mp h

/-- A token whose first character is not whitespace survives
`List.dropWhile isPySpace` as an infix. -/
theorem infix_dropWhile_of_head {c : Char} {t : Str}
    (hc : isPySpace c = false) :
    ∀ {l : Str}, c :: t <:+: l → c :: t <:+: l.dropWhile isPySpace := by
  intro l hl
  rcases hl with ⟨a, b, rfl⟩
  induction a with
  | nil =>
    simp only [List.nil_append, List.cons_append]
    rw [List.dropWhile_cons_of_neg (by simp [hc])]
    exact (List.prefix_append (c :: t) b).isInfix
  | cons x a' ih =>
    by_cases hx : isPySpace x
    · simpa [List.dropWhile_cons_of_pos hx] using ih
    · rw [List.cons_append, List.cons_append, List.dropWhile_cons_of_neg hx]
      exact List.infix_cons (List.infix_append a' (c :: t) b)

/-- A token whose first and last characters are not whitespace survives
Python's `strip` (interior whitespace is irrelevant). -/
theorem infix_pystrip_of_ends {tok l : Str} (hne : tok ≠ [])
    (hhead : isPySpace (tok.headD ' ') = false)
    (hlast : isPySpace (tok.getLastD ' ') = false) (h : tok <:+: l) :
    tok <:+: pystrip l := by
  match htok : tok, hne with
  | c :: t, _ =>
    subst htok
    have hc : isPySpace c = false := by simpa using hhead
    have step1 : c :: t <:+: l.dropWhile isPySpace :=
      infix_dropWhile_of_head hc h
    have hrev : (c :: t).reverse <:+: (l.dropWhile isPySpace).reverse :=
      List.reverse_infix.mpr step1
    have hrevne : (c :: t).reverse ≠ [] := by simp
    match hrt : (c :: t).reverse, hrevne with
    | c' :: t', _ =>
      have hc' : isPySpace c' = false := by
        have hlast' : (c :: t).getLastD ' ' = c' := by
          rw [List.getLastD_eq_getLast?, ← List.head?_reverse, hrt]
          rfl
        rw [hlast'] at hlast
        exact hlast
      have step2 : c' :: t' <:+: ((l.dropWhile isPySpace).reverse.dropWhile isPySpace) :=
        infix_dropWhile_of_head hc' (hrt ▸ hrev)
      have step3 : (c' :: t').reverse <:+:
          ((l.dropWhile isPySpace).reverse.dropWhile isPySpace).reverse :=
        List.reverse_infix.mpr step2
      have hback : (c' :: t').reverse = c :: t := by
        rw [← hrt, List.reverse_reverse]
      rw [hback] at step3
      simpa [pystrip] using step3

/-- A non-empty all-non-whitespace token survives Python's `strip`. -/
theorem infix_pystrip {tok l : Str} (hne : tok ≠ [])
    (hws : ∀ c ∈ tok, isPySpace c = false) (h : tok <:+: l) :
    tok <:+: pystrip l := by
  refine infix_pystrip_of_ends hne ?_ ?_ h
  · match tok, hne with
    | c :: t, _ => exact hws c (by simp)
  · match htok : tok, hne with
    | c :: t, _ =>
      rw [List.getLastD_cons]
      exact hws _ (List.getLastD_mem_cons t c)

/-- Appending on either side preserves infixes. -/
theorem infix_append_left_right {tok m : Str} (a b : Str) (h : tok <:+: m) :
    tok <:+: a ++ m ++ b :=
  h.trans (List.infix_append a m b)

/-- A member of a list of fragments is an infix of their separator-join. -/
theorem infix_pyjoin {x : Str} (sep : Str) {l : List Str} (hx : x ∈ l) :
    x <:+: pyjoin sep l := by
  induction l with
  | nil => cases hx
  | cons y t ih =>
    match t with
    | [] =>
      simp only [List.mem_singleton] at hx
      subst hx
      exact List.infix_refl x
    | z :: t' =>
      rcases List.mem_cons.mp hx with rfl | hx'
      · show x <:+: x ++ sep ++ pyjoin sep (z :: t')
        exact ((List.prefix_append x sep).trans (List.prefix_append _ _)).isInfix
      · show x <:+: y ++ sep ++ pyjoin sep (z :: t')
        exact (ih hx').trans (List.suffix_append _ _).isInfix

/-- With no occurrence of the pattern, `pyreplaceAux` is the identity at
every budget. -/
theorem pyreplaceAux_of_not_contains {old new : Str} (fuel : Nat) (hay : Str)
    (h : strContains hay old = false) : pyreplaceAux old new fuel hay = hay := by
  induction fuel generalizing hay with
  | zero => cases hay <;> rfl
  | succ fuel ih =>
    cases hay with
    | nil => rfl
    | cons c t =>
      simp only [strContains, Bool.or_eq_true] at h
      rw [Bool.or_eq_false_iff] at h
      have hcond : ¬(old ≠ [] ∧ old.isPrefixOf (c :: t)) := by
        rintro ⟨_, hpre⟩
        rw [h.1] at hpre
        exact absurd hpre (by simp)
      rw [pyreplaceAux, if_neg hcond, ih t h.2]

/-- `pyreplace` is the identity when the pattern does not occur. -/
theorem pyreplace_of_not_contains {old new hay : Str}
    (h : strContains hay old = false) : pyreplace old new hay = hay :=
  pyreplaceAux_of_not_contains _ hay h

/-! ## Data model (`application/backend/models.py`)

`TopNDefinition` and `AggregationDefinition` (pydantic models).  The two
free-form JSON blob fields `datasourceMetadata`/`fieldMetadata` are never
read by the code under verification and are omitted. -/

structure Measure where
  expression : Str
  «alias» : Str
deriving DecidableEq, Repr

structure TopNDefinition where
  orderByKey : List Str
  topN : Int
deriving DecidableEq, Repr

structure AggregationDefinition where
  dimensions : List Str
  measures : List Measure
  preAggregationFilters : Str := []
  postAggregationFilters : Str := []
  timeDimension : List Str := []
  geoDimension : List Str := []
  categoricalDimension : List Str := []
  response_type : Str := str "data"
  createdDateRange : Option (List Str) := none
  topN : Option TopNDefinition := none
deriving DecidableEq, Repr

/-- The Schema Catalog.  `utils.py` loads `TIME_DIMENSIONS` / `GEO_DIMENSIONS`
and `query_engine._get_dimension_types` loads the name → data-type map from
`data/data_schema.json`, which is a data file of the repository (not part of
the source under verification); the catalog is therefore passed as an explicit
parameter to every function that reads it. -/
structure Schema where
  dimensionTypes : List (Str × Str)
  timeDimensions : List Str
  geoDimensions : List Str
deriving DecidableEq, Repr

/-- Modelled from the spec: the Schema Catalog contents shipped with the
application (`data/data_schema.json` is absent from the sources; the
time/geo dimension lists match the constants hard-coded in
`application/backend/main.py`, and the data types follow the spec's "quality
filters" description: textual dimensions are `string`). -/
def defaultSchema : Schema :=
  { dimensionTypes :=
      [ (str "complaint_type", str "string")
      , (str "borough", str "string")
      , (str "county", str "string")
      , (str "neighborhood_name", str "string")
      , (str "incident_zip", str "string")
      , (str "location", str "string")
      , (str "agency_name", str "string")
      , (str "created_date", str "date")
      , (str "closed_date", str "date")
      , (str "created_week", str "date")
      , (str "created_month", str "date")
      , (str "created_year", str "integer")
      , (str "time_to_resolve_day_bin", str "string")
      , (str "created_weekday_datepart", str "string") ]
  , timeDimensions :=
      [ str "created_week", str "closed_week", str "created_date", str "closed_date"
      , str "created_month", str "closed_month", str "created_year", str "closed_year"
      , str "created_year_datepart", str "created_month_datepart"
      , str "created_day_datepart", str "created_hour_datepart"
      , str "closed_year_datepart", str "closed_month_datepart"
      , str "closed_day_datepart", str "closed_hour_datepart" ]
  , geoDimensions :=
      [ str "borough", str "county", str "location", str "incident_zip"
      , str "neighborhood_name" ] }

/-- `utils.classify_dimensions`: time = members of `TIME_DIMENSIONS`,
geo = members of `GEO_DIMENSIONS`, categorical = everything non-time
(geo dimensions are categorical too). -/
def classify_dimensions (S : Schema) (dimensions : List Str) :
    List Str × List Str × List Str :=
  let time_dims := dimensions.filter (fun d => S.timeDimensions.contains d)
  let geo_dims := dimensions.filter (fun d => S.geoDimensions.contains d)
  let cat_dims := dimensions.filter (fun d => ¬ S.timeDimensions.contains d)
  (time_dims, geo_dims, cat_dims)

/-! ## SQL generation (`application/backend/query_engine.py`) -/

/-- `query_engine._build_select_clause`. -/
def _build_select_clause (definition : AggregationDefinition) : Str :=
  let dims := definition.dimensions
  let dims_clause := if dims.isEmpty then [] else pyjoin (str "\n  , ") dims
  let measures_clause :=
    pyjoin (str ", ")
      (definition.measures.map (fun m => m.expression ++ str " AS " ++ m.«alias»))
  if ¬dims_clause.isEmpty ∧ ¬measures_clause.isEmpty then
    dims_clause ++ str "\n  , " ++ measures_clause
  else if ¬dims_clause.isEmpty then dims_clause else measures_clause

/-- `query_engine._build_metadata_clauses`: per-measure window statistics,
result-size indicator, date range, and (for location-style dimensions) the
un-prefixed `reference_*` columns. -/
def _build_metadata_clauses (definition : AggregationDefinition) : Str :=
  let dims := definition.dimensions
  let stats_metadata :=
    definition.measures.foldl (fun acc measure =>
      let ma := measure.«alias»
      let acc := acc ++
        str "\n  , avg(" ++ ma ++ str ") over () as metadata_avg_" ++ ma ++
        str "\n  , median(" ++ ma ++ str ") over () as metadata_median_" ++ ma ++
        str "\n  , stddev(" ++ ma ++ str ") over () as metadata_stddev_" ++ ma
      if ¬dims.isEmpty then
        let dim_array_elements := pyjoin (str ", ") dims ++ str ", " ++ ma
        acc ++
          str "\n  , cast(max_by(json_array(" ++ dim_array_elements ++ str "), " ++
            ma ++ str ", 3) over () as string) as metadata_top_3_" ++ ma ++
          str "\n  , cast(min_by(json_array(" ++ dim_array_elements ++ str "), " ++
            ma ++ str ", 3) over () as string) as metadata_bottom_3_" ++ ma
      else acc) []
  let stats_metadata := stats_metadata ++
    str "\n  , cast(sum(min(1)) over () > 5000 as string) as metadata_result_exceeds_limit"
  let date_metadata :=
    str "\n  , min(min(created_date)) over () as metadata_min_created_date\n  , max(max(created_date)) over () as metadata_max_created_date"
  let location_reference :=
    if ¬dims.isEmpty ∧ dims.any (fun dim =>
        strContains dim (str "location") || strContains dim (str "incident_zip") ||
        strContains dim (str "neighborhood_name")) then
      let base := str "\n  , min(borough) as reference_borough"
      if dims.any (fun dim => strContains dim (str "location")) then
        base ++ str ",\n  string_agg(distinct nullif(neighborhood_name, 'Unspecified'), ', ') as reference_neighborhood"
      else base
    else []
  stats_metadata ++ date_metadata ++ location_reference

/-- `query_engine._build_order_clause`: top-N wins, then the special single
ordinal dimensions, then time dimension, then first measure descending. -/
def _build_order_clause (S : Schema) (definition : AggregationDefinition) : Str :=
  let dims := definition.dimensions
  match definition.topN with
  | some t =>
      str "ORDER BY " ++ pyjoin (str ", ") t.orderByKey ++
        str "\nLIMIT " ++ intToStr t.topN
  | none =>
    if dims.length = 1 then
      let d0 := dims.headD []
      if d0 = str "time_to_resolve_day_bin" then
        str "ORDER BY time_to_resolve_day_bin ASC"
      else if d0 = str "created_weekday_datepart" then
        str "ORDER BY MIN(created_weekday_order) ASC"
      else if d0 = str "closed_weekday_datepart" then
        str "ORDER BY MIN(closed_weekday_order) ASC"
      else if S.timeDimensions.contains d0 then
        str "ORDER BY " ++ d0 ++ str " ASC"
      else if ¬definition.measures.isEmpty then
        str "ORDER BY " ++ (definition.measures.headD ⟨[], []⟩).«alias» ++ str " DESC"
      else []
    else if ¬definition.timeDimension.isEmpty then
      str "ORDER BY " ++ definition.timeDimension.headD [] ++ str " ASC"
    else if ¬definition.measures.isEmpty then
      str "ORDER BY " ++ (definition.measures.headD ⟨[], []⟩).«alias» ++ str " DESC"
    else []

/-- The implicit per-dimension quality filters of `generate_sql`:
`dim != 'Unspecified'` for schema type `string`, `dim IS NOT NULL` for any
other schema-known type; dimensions unknown to the schema get no filter. -/
def quality_filters (S : Schema) (dims : List Str) : List Str :=
  dims.filterMap (fun dim =>
    match List.lookup dim S.dimensionTypes with
    | some data_type =>
        if data_type = str "string" then some (dim ++ str " != 'Unspecified'")
        else some (dim ++ str " IS NOT NULL")
    | none => none)

/-- `query_engine.generate_sql` up to (and including) the ORDER BY clause;
the default row cap and trailing semicolon are applied on top of this by
`generate_sql`.  This seam names the intermediate value the code holds just
before its `if "LIMIT" not in sql` check. -/
def sqlBeforeLimit (S : Schema) (definition : AggregationDefinition)
    (table_name : Str) : Str :=
  let select_clause := _build_select_clause definition
  let metadata_clauses := _build_metadata_clauses definition
  let full_select := select_clause ++ metadata_clauses
  let sql := str "SELECT\n  " ++ full_select ++ str "\nFROM " ++ table_name
  let qf := quality_filters S definition.dimensions
  let where_clause_exists := ¬definition.preAggregationFilters.isEmpty
  let sql :=
    if ¬definition.preAggregationFilters.isEmpty then
      sql ++ str "\nWHERE " ++ definition.preAggregationFilters
    else sql
  let sql :=
    if ¬qf.isEmpty then
      let quality_condition := pyjoin (str " AND ") qf
      if where_clause_exists then sql ++ str " AND (" ++ quality_condition ++ str ")"
      else sql ++ str "\nWHERE " ++ quality_condition
    else sql
  let sql :=
    if ¬definition.dimensions.isEmpty then
      sql ++ str "\nGROUP BY " ++
        pyjoin (str ", ")
          ((List.range definition.dimensions.length).map (fun i => natToStr (i + 1)))
    else sql
  let sql :=
    if ¬definition.postAggregationFilters.isEmpty then
      sql ++ str "\nHAVING " ++ definition.postAggregationFilters
    else sql
  let order_clause := _build_order_clause S definition
  if ¬order_clause.isEmpty then sql ++ str "\n" ++ order_clause else sql

/-- `query_engine.generate_sql`: assembles the SQL, appends the default
`LIMIT 5000` when the text does not already contain `LIMIT`, appends a
semicolon when the stripped text does not already end in one, and strips. -/
def generate_sql (S : Schema) (definition : AggregationDefinition)
    (table_name : Str) : Str :=
  let sql := sqlBeforeLimit S definition table_name
  let sql := if strContains sql (str "LIMIT") then sql else sql ++ str "\nLIMIT 5000"
  let sql := if ¬(str ";").isSuffixOf (pystrip sql) then sql ++ str ";" else sql
  pystrip sql

/-! ## SQL execution (`query_engine.execute_sql_in_duckDB`) -/

/-- Caller location as supplied to the executor (`user_location` dict with
`latitude`/`longitude`; the numeric values are carried as their `str(...)`
rendering, which is all the code ever uses them for). -/
structure UserLocation where
  latitude : Str
  longitude : Str
deriving DecidableEq, Repr

/-- The placeholder-substitution step at the top of `execute_sql_in_duckDB`:
location placeholders are replaced right before execution, only when a
location is supplied and the SQL mentions a latitude placeholder; the
compiled SQL value itself is never mutated. -/
def substituteLocation (sql : Str) (user_location : Option UserLocation) : Str :=
  match user_location with
  | none => sql
  | some loc =>
    if strContains sql (str "{{user_latitude}}") ||
        strContains sql (str "{user_latitude}") then
      let s := pyreplace (str "{{user_latitude}}") loc.latitude sql
      let s := pyreplace (str "{{user_longitude}}") loc.longitude s
      let s := pyreplace (str "{user_latitude}") loc.latitude s
      pyreplace (str "{user_longitude}") loc.longitude s
    else sql

/-- A dataframe row as produced by DuckDB ↦ pandas ↦ JSON records:
an ordered association of column name to (stringified) cell value. -/
abbrev Row := List (Str × Str)

/-- A query result dataframe, row-major (all rows share the column layout). -/
abbrev Df := List Row

/-- `df.columns` (taken from the leading row). -/
def df_columns (df : Df) : List Str :=
  match df with
  | [] => []
  | r :: _ => r.map (fun kv => kv.1)

/-- `df[col].iloc[0]`: the first row's value in column `col` (callers only
ever pass columns of the frame; missing columns default to the empty value). -/
def df_iloc0 (df : Df) (col : Str) : Str :=
  match df with
  | [] => []
  | r :: _ => (List.lookup col r).getD []

/-- The metadata structure assembled by `_extract_metadata_from_results`:
`createdDateRange` plus the nested `statistics` mapping (insertion-ordered
association lists model the Python dicts; an absent `statistics` key is the
empty list). -/
structure QueryMetadata where
  createdDateRange : Option (Str × Str)
  statistics : List (Str × List (Str × Str))
deriving DecidableEq, Repr

/-- `d[k] = v` on an insertion-ordered dict. -/
def dictSet (k : Str) (v : Str) : List (Str × Str) → List (Str × Str)
  | [] => [(k, v)]
  | (k', v') :: t => if k' = k then (k, v) :: t else (k', v') :: dictSet k v t

/-- `d.setdefault(measure, {})[stat] = v` on the nested statistics dict. -/
def statSet (measure stat v : Str) :
    List (Str × List (Str × Str)) → List (Str × List (Str × Str))
  | [] => [(measure, [(stat, v)])]
  | (k, inner) :: t =>
      if k = measure then (k, dictSet stat v inner) :: t
      else (k, inner) :: statSet measure stat v t

/-- `query_engine._extract_metadata_from_results`: date range from the two
`metadata_*_created_date` columns and per-column statistics obtained by
stripping the `metadata_` prefix and splitting at the first underscore into
(statistic, measure) — only columns with the `metadata_` prefix take part. -/
def _extract_metadata_from_results (df : Df) : QueryMetadata :=
  let metadata_cols :=
    (df_columns df).filter (fun c => (str "metadata_").isPrefixOf c)
  if metadata_cols.isEmpty then ⟨none, []⟩
  else
    let createdDateRange :=
      if (df_columns df).contains (str "metadata_min_created_date") ∧
          (df_columns df).contains (str "metadata_max_created_date") then
        some (df_iloc0 df (str "metadata_min_created_date"),
              df_iloc0 df (str "metadata_max_created_date"))
      else none
    let stats :=
      metadata_cols.foldl (fun acc col =>
        if col ≠ str "metadata_min_created_date" ∧
            col ≠ str "metadata_max_created_date" then
          match splitOnce '_' (pyreplace (str "metadata_") [] col) with
          | some (stat_name, measure_name) =>
              statSet measure_name stat_name (df_iloc0 df col) acc
          | none => acc
        else acc) []
    ⟨createdDateRange, stats⟩

/-- The result-shaping tail of `execute_sql_in_duckDB` (lines 303–309): on a
non-empty result, extract the metadata and drop every `metadata_`-prefixed
column from the rows; an empty result is returned as-is with empty metadata.
(The actual DuckDB scan is outside the model: this is the pure function the
code applies to the fetched frame.) -/
def executorPostProcess (df : Df) : Df × QueryMetadata :=
  if 0 < df.length then
    let metadata := _extract_metadata_from_results df
    let metadata_cols :=
      (df_columns df).filter (fun c => (str "metadata_").isPrefixOf c)
    (df.map (fun r => r.filter (fun kv => ¬ metadata_cols.contains kv.1)), metadata)
  else (df, ⟨none, []⟩)

/-! ## Query processing (`query_engine.process_aggregation_query`) -/

/-- Outcome of the deterministic tail of `process_aggregation_query`: either
the distinguished location-required result (returned before any SQL
execution) or a normal execution of the generated SQL with the supplied
location. -/
inductive QueryOutcome where
  | locationRequired
  | executed (sql : Str) (user_location : Option UserLocation)
deriving DecidableEq, Repr

/-- The deterministic part of `process_aggregation_query` (lines 562–581),
starting from the already-parsed `AggregationDefinition` (the Gemini call and
JSON parsing upstream are outside the model): classify dimensions, generate
the SQL with placeholders intact, and fail fast with `locationRequired`
when the SQL needs a location that was not supplied. -/
def processAggregationCore (S : Schema) (agg_def : AggregationDefinition)
    (user_location : Option UserLocation) : QueryOutcome :=
  let (time_dim, geo_dim, cat_dim) := classify_dimensions S agg_def.dimensions
  let agg_def := { agg_def with
    timeDimension := time_dim, geoDimension := geo_dim,
    categoricalDimension := cat_dim }
  let sql := generate_sql S agg_def (str "requests_311")
  let location_enabled := user_location.isSome
  if (strContains sql (str "user_latitude") ||
      strContains sql (str "user_longitude")) && !location_enabled then
    QueryOutcome.locationRequired
  else
    QueryOutcome.executed sql user_location

/-! ## Dimension reordering (`query_engine.reorder_dimensions_by_cardinality`) -/

/-- The `DimensionStats` map: dimension name → statistics dict
(`total_unique` and friends; only `total_unique` is ever read here). -/
abbrev DimStats := List (Str × List (Str × Nat))

/-- `dimension_stats.get(dim, {}).get("total_unique", 0)`. -/
def totalUniqueKey (stats : DimStats) (dim : Str) : Nat :=
  ((List.lookup dim stats).getD []).lookup (str "total_unique") |>.getD 0

/-- One step of the stable descending insertion sort: place `a` before the
first element whose key is not larger (ties keep input order). -/
def insertDesc (k : Str → Nat) (a : Str) : List Str → List Str
  | [] => [a]
  | b :: l => if k a ≥ k b then a :: b :: l else b :: insertDesc k a l

/-- Stable descending sort by key — the behaviour of Python's
`sorted(xs, key=k, reverse=True)` (Timsort is stable and `reverse=True`
keeps equal-key elements in input order). -/
def sortDesc (k : Str → Nat) : List Str → List Str
  | [] => []
  | a :: l => insertDesc k a (sortDesc k l)

/-- `query_engine.reorder_dimensions_by_cardinality`: no-op for ≤ 1 dimension
or empty stats; otherwise sort dimensions by descending `total_unique`
(stable) and re-derive the classification fields. -/
def reorder_dimensions_by_cardinality (S : Schema)
    (agg_def : AggregationDefinition) (dimension_stats : DimStats) :
    AggregationDefinition :=
  if agg_def.dimensions.isEmpty ∨ agg_def.dimensions.length ≤ 1 ∨
      dimension_stats.isEmpty then agg_def
  else
    let sorted_dims := sortDesc (totalUniqueKey dimension_stats) agg_def.dimensions
    let (time_dim, geo_dim, cat_dim) := classify_dimensions S sorted_dims
    { agg_def with
      dimensions := sorted_dims
      timeDimension := time_dim
      geoDimension := geo_dim
      categoricalDimension := cat_dim }

/-! ## Visualization classifier
(`application/backend/visualization_recommender.py`) -/

/-- `visualization_recommender.ADDITIVE_MEASURES`. -/
def ADDITIVE_MEASURES : List Str := [str "num_of_requests", str "population"]

/-- `visualization_recommender.is_measure_additive`. -/
def is_measure_additive (measure_alias : Str) : Bool :=
  ADDITIVE_MEASURES.contains measure_alias

/-- `visualization_recommender.CARDINALITY_THRESHOLD`. -/
def CARDINALITY_THRESHOLD : Nat := 15

/-- `visualization_recommender.all_dimensions_exceed_cardinality`: false for
empty inputs or when every dimension is a time dimension; otherwise every
non-time dimension present in the stats must exceed the threshold, and
dimensions absent from the stats are skipped (`continue`). -/
def all_dimensions_exceed_cardinality (S : Schema) (dimensions : List Str)
    (dimension_stats : List (Str × Nat)) (threshold : Nat) : Bool :=
  if dimensions.isEmpty || dimension_stats.isEmpty then false
  else
    let non_time_dims := dimensions.filter (fun d => ¬ S.timeDimensions.contains d)
    if non_time_dims.isEmpty then false
    else
      non_time_dims.all (fun dim =>
        match List.lookup dim dimension_stats with
        | none => true
        | some cardinality => decide (cardinality > threshold))

/-- `visualization_recommender.is_topn_query`. -/
def is_topn_query (agg_def : AggregationDefinition) : Bool :=
  agg_def.topN.isSome

/-- `visualization_recommender.get_viz_recommendations`: the rule-based
classifier mapping (definition, cardinality stats, row count) to
(available chart types, ideal chart type).  `dimension_stats = none` models
the Python default `None`; the stats values are the per-dimension
cardinalities (`Dict[str, int]`).  The sequential mutations of
`available`/`ideal` are modelled as a chain of pairs `p0 … p6`, one per
rule block, keeping the append order of the Python code. -/
def get_viz_recommendations (S : Schema) (agg_def : AggregationDefinition)
    (dimension_stats : Option (List (Str × Nat)))
    (dataset_length : Option Nat) : List Str × Str :=
  if dataset_length = some 1 then ([str "table"], str "table")
  else
    let p0 : List Str × Str := ([str "table"], str "table")
    let dimensions := agg_def.dimensions
    let measures := agg_def.measures
    let time_dim := (classify_dimensions S dimensions).1
    let geo_dim := (classify_dimensions S dimensions).2.1
    let cat_dim := (classify_dimensions S dimensions).2.2
    let dim_count := dimensions.length
    let time_count := time_dim.length
    let geo_count := geo_dim.length
    let cat_count := cat_dim.length
    let measure_count := measures.length
    let additive_measure_count :=
      (measures.filter (fun m => is_measure_additive m.«alias»)).length
    let all_additive_measures := additive_measure_count = measure_count
    let is_topn := is_topn_query agg_def
    if agg_def.response_type = str "text" then ([str "text"], str "text")
    else if dimensions.isEmpty ∧ measures.isEmpty then p0
    else
      let high_cardinality := dimension_stats.isSome &&
        all_dimensions_exceed_cardinality S dimensions (dimension_stats.getD [])
          CARDINALITY_THRESHOLD
      let is_not_location : Bool := decide (dimensions.headD [] ≠ str "location")
      if dim_count > 2 ∨ measure_count = 0 then p0
      else
        let p1 :=
          if cat_count = 1 ∧ measure_count = 1 ∧ time_count = 0 ∧
              is_not_location = true then
            (p0.1 ++ [str "single_bar_chart"], str "single_bar_chart")
          else p0
        let p2 :=
          if time_count = 1 ∧ measure_count = 1 ∧ high_cardinality = false then
            if cat_count = 1 ∧ additive_measure_count = measure_count then
              (p1.1 ++ [str "line_chart"] ++
                [str "stacked_area_chart", str "stacked_area_chart_100"],
               str "line_chart")
            else (p1.1 ++ [str "line_chart"], str "line_chart")
          else p1
        let p3 :=
          if 1 ≤ dim_count ∧ dim_count ≤ 2 ∧ 1 ≤ measure_count ∧ measure_count ≤ 2 ∧
              (cat_count > 1 ∨ measure_count > 1) then
            (p2.1 ++ [str "nested_bar_chart"], str "nested_bar_chart")
          else p2
        let p4 :=
          if cat_count = 2 ∧ measure_count = 1 ∧ high_cardinality = false then
            if additive_measure_count = measure_count then
              (p3.1 ++ [str "grouped_bar_chart"] ++
                [str "stacked_bar_chart", str "stacked_bar_chart_100"],
               str "stacked_bar_chart")
            else (p3.1 ++ [str "grouped_bar_chart"], str "grouped_bar_chart")
          else p3
        let p5 :=
          if 1 ≤ dim_count ∧ dim_count ≤ 2 ∧ measure_count = 1 ∧ time_count = 0 ∧
              all_additive_measures ∧ is_not_location = true ∧ is_topn = false then
            (p4.1 ++ [str "treemap"], p4.2)
          else p4
        let p6 :=
          if geo_count = 1 ∧ dimensions.length = 1 ∧ measure_count = 1 then
            let geo_name := pylower (geo_dim.headD [])
            if geo_name = str "location" then
              ((p5.1 ++ [str "heatmap"]).erase (str "table"), str "heatmap")
            else if geo_name = str "borough" ∨ geo_name = str "county" ∨
                geo_name = str "neighborhood_name" ∨
                geo_name = str "incident_zip" then
              (p5.1 ++ [str "choropleth_map"], str "choropleth_map")
            else p5
          else p5
        p6

/-! ## Supporting lemmas: the compiler splices filters verbatim -/

theorem infix_extend {tok s : Str} (h : tok <:+: s) (x : Str) : tok <:+: s ++ x :=
  h.trans (List.prefix_append s x).isInfix

theorem infix_sqlBeforeLimit_of_pre {S : Schema} {defn : AggregationDefinition}
    {table_name tok : Str} (htok : tok ≠ [])
    (h : tok <:+: defn.preAggregationFilters) :
    tok <:+: sqlBeforeLimit S defn table_name := by
  have hne : defn.preAggregationFilters.isEmpty = false := by
    cases hE : defn.preAggregationFilters.isEmpty
    · rfl
    · rw [List.isEmpty_iff] at hE
      rw [hE] at h
      exact absurd (List.eq_nil_of_infix_nil h) htok
  have base : tok <:+:
      str "SELECT\n  " ++ (_build_select_clause defn ++ _build_metadata_clauses defn) ++
        str "\nFROM " ++ table_name ++ str "\nWHERE " ++ defn.preAggregationFilters :=
    h.trans (List.suffix_append _ _).isInfix
  simp only [sqlBeforeLimit, hne, Bool.false_eq_true, not_false_eq_true, if_true]
  generalize hB : str "SELECT\n  " ++ (_build_select_clause defn ++ _build_metadata_clauses defn) ++
        str "\nFROM " ++ table_name ++ str "\nWHERE " ++ defn.preAggregationFilters = B at base ⊢
  by_cases hq : (quality_filters S defn.dimensions).isEmpty <;>
    by_cases hd : defn.dimensions.isEmpty <;>
    by_cases hp : defn.postAggregationFilters.isEmpty <;>
    by_cases ho : (_build_order_clause S defn).isEmpty <;>
    simp only [hq, hd, hp, ho, Bool.true_eq_false, Bool.false_eq_true,
      not_false_eq_true, not_true_eq_false, if_true, if_false, ite_true, ite_false] <;>
    (repeat (first | exact base | apply infix_extend))

set_option maxHeartbeats 2000000 in
theorem infix_sqlBeforeLimit_of_post {S : Schema} {defn : AggregationDefinition}
    {table_name tok : Str} (htok : tok ≠ [])
    (h : tok <:+: defn.postAggregationFilters) :
    tok <:+: sqlBeforeLimit S defn table_name := by
  have hne : defn.postAggregationFilters.isEmpty = false := by
    cases hE : defn.postAggregationFilters.isEmpty
    · rfl
    · rw [List.isEmpty_iff] at hE
      rw [hE] at h
      exact absurd (List.eq_nil_of_infix_nil h) htok
  simp only [sqlBeforeLimit, hne, Bool.false_eq_true, not_false_eq_true, if_true]
  by_cases hw : defn.preAggregationFilters.isEmpty <;>
    by_cases hq : (quality_filters S defn.dimensions).isEmpty <;>
    by_cases hd : defn.dimensions.isEmpty <;>
    by_cases ho : (_build_order_clause S defn).isEmpty <;>
    simp only [hw, hq, hd, ho, Bool.true_eq_false, Bool.false_eq_true,
      not_false_eq_true, not_true_eq_false, if_true, if_false, ite_true, ite_false] <;>
    (repeat (first
      | exact h.trans (List.suffix_append _ _).isInfix
      | apply infix_extend))

theorem infix_generate_sql_of_infix_sqlBeforeLimit {S : Schema}
    {defn : AggregationDefinition} {table_name tok : Str} (htok : tok ≠ [])
    (hws : ∀ c ∈ tok, isPySpace c = false)
    (h : tok <:+: sqlBeforeLimit S defn table_name) :
    tok <:+: generate_sql S defn table_name := by
  simp only [generate_sql]
  apply infix_pystrip htok hws
  split <;> split <;>
    (repeat (first | exact h | apply infix_extend))

/-- Variant of the previous lemma for tokens that may contain interior
whitespace but start and end with non-whitespace characters. -/
theorem infix_generate_sql_of_ends {S : Schema}
    {defn : AggregationDefinition} {table_name tok : Str} (htok : tok ≠ [])
    (hhead : isPySpace (tok.headD ' ') = false)
    (hlast : isPySpace (tok.getLastD ' ') = false)
    (h : tok <:+: sqlBeforeLimit S defn table_name) :
    tok <:+: generate_sql S defn table_name := by
  simp only [generate_sql]
  apply infix_pystrip_of_ends htok hhead hlast
  split <;> split <;>
    (repeat (first | exact h | apply infix_extend))

/-! ## Claim C1: the compiler never substitutes location placeholders -/

/-- The location placeholder tokens (single- and double-brace forms). -/
def locationPlaceholderTokens : List Str :=
  [str "{user_latitude}", str "{user_longitude}",
   str "{{user_latitude}}", str "{{user_longitude}}"]

/-- C1.  For every `AggregationDefinition` whose
`preAggregationFilters`/`postAggregationFilters` contain a location
placeholder token (`{user_latitude}`, `{user_longitude}` or a double-brace
form), the SQL returned by `generate_sql` still contains that token
verbatim — the compiler never substitutes it; and the executor substitutes
coordinates only for its own execution: with no location supplied the SQL it
runs is the compiled text unchanged. -/
theorem claim_C1_compiler_preserves_location_placeholders
    (S : Schema) (defn : AggregationDefinition) (table_name tok : Str)
    (htok : tok ∈ locationPlaceholderTokens)
    (h : tok <:+: defn.preAggregationFilters ∨
         tok <:+: defn.postAggregationFilters) :
    tok <:+: generate_sql S defn table_name ∧
      ∀ sql : Str, substituteLocation sql none = sql := by
  simp only [locationPlaceholderTokens, List.mem_cons, List.mem_singleton,
    List.not_mem_nil, or_false] at htok
  have hne : tok ≠ [] := by
    rcases htok with rfl | rfl | rfl | rfl <;> decide
  have hws : ∀ c ∈ tok, isPySpace c = false := by
    rcases htok with rfl | rfl | rfl | rfl <;> decide
  refine ⟨?_, fun _ => rfl⟩
  apply infix_generate_sql_of_infix_sqlBeforeLimit hne hws
  rcases h with h | h
  · exact infix_sqlBeforeLimit_of_pre hne h
  · exact infix_sqlBeforeLimit_of_post hne h

/-- A definition whose pre-aggregation filter carries location placeholders
(a proximity query as produced by the translation step). -/
def locFilterExample : AggregationDefinition :=
  { dimensions := [str "complaint_type"]
  , measures := [⟨str "count(1)", str "num_of_requests"⟩]
  , preAggregationFilters :=
      str "ST_DWithin(location::geometry, ST_Point({user_longitude}, {user_latitude})::geometry, 0.01)" }

/-- Witness for C1 at a concrete proximity definition. -/
theorem claim_C1_witness :
    str "{user_latitude}" <:+:
      generate_sql defaultSchema locFilterExample (str "requests_311") :=
  (claim_C1_compiler_preserves_location_placeholders defaultSchema
    locFilterExample (str "requests_311") (str "{user_latitude}")
    (by decide) (Or.inl (by decide))).1

/-! ## Claim C2: missing location is decided before execution -/

/-- C2.  Compiling and processing a definition whose pre-aggregation filters
contain a location placeholder token, with no caller location supplied,
always yields the distinguished `locationRequired` outcome — decided before
any SQL execution (the `executed` alternative is never produced), never an
execution error. -/
theorem claim_C2_location_required_without_location
    (S : Schema) (agg_def : AggregationDefinition) (tok : Str)
    (htok : tok ∈ locationPlaceholderTokens)
    (h : tok <:+: agg_def.preAggregationFilters) :
    processAggregationCore S agg_def none = QueryOutcome.locationRequired := by
  simp only [locationPlaceholderTokens, List.mem_cons, List.mem_singleton,
    List.not_mem_nil, or_false] at htok
  have hne : tok ≠ [] := by
    rcases htok with rfl | rfl | rfl | rfl <;> decide
  have hws : ∀ c ∈ tok, isPySpace c = false := by
    rcases htok with rfl | rfl | rfl | rfl <;> decide
  unfold processAggregationCore
  rcases hcls : classify_dimensions S agg_def.dimensions with ⟨td, gd, cd⟩
  have hsql : tok <:+: generate_sql S
      { agg_def with
        timeDimension := td, geoDimension := gd, categoricalDimension := cd }
      (str "requests_311") :=
    infix_generate_sql_of_infix_sqlBeforeLimit hne hws
      (infix_sqlBeforeLimit_of_pre hne h)
  have hcond :
      (strContains (generate_sql S
          { agg_def with
            timeDimension := td, geoDimension := gd, categoricalDimension := cd }
          (str "requests_311"))
          (str "user_latitude") ||
        strContains (generate_sql S
          { agg_def with
            timeDimension := td, geoDimension := gd, categoricalDimension := cd }
          (str "requests_311"))
          (str "user_longitude")) = true := by
    rw [Bool.or_eq_true]
    rcases htok with rfl | rfl | rfl | rfl
    · exact Or.inl (strContains_intro
        ((by decide : str "user_latitude" <:+: str "{user_latitude}").trans hsql))
    · exact Or.inr (strContains_intro
        ((by decide : str "user_longitude" <:+: str "{user_longitude}").trans hsql))
    · exact Or.inl (strContains_intro
        ((by decide : str "user_latitude" <:+: str "{{user_latitude}}").trans hsql))
    · exact Or.inr (strContains_intro
        ((by decide : str "user_longitude" <:+: str "{{user_longitude}}").trans hsql))
  simp [hcond]

/-- Witness for C2: the concrete proximity definition with no location. -/
theorem claim_C2_witness :
    processAggregationCore defaultSchema locFilterExample none =
      QueryOutcome.locationRequired :=
  claim_C2_location_required_without_location defaultSchema locFilterExample
    (str "{user_latitude}") (by decide) (by decide)

/-! ## Supporting lemmas: the stable descending sort -/

theorem insertDesc_perm (k : Str → Nat) (a : Str) (l : List Str) :
    List.Perm (insertDesc k a l) (a :: l) := by
  induction l with
  | nil => rfl
  | cons b t ih =>
    rw [insertDesc]
    split
    · rfl
    · exact (ih.cons b).trans (List.Perm.swap a b t)

theorem sortDesc_perm (k : Str → Nat) (l : List Str) :
    List.Perm (sortDesc k l) l := by
  induction l with
  | nil => rfl
  | cons a t ih => exact (insertDesc_perm k a (sortDesc k t)).trans (ih.cons a)

theorem sorted_insertDesc (k : Str → Nat) (a : Str) {l : List Str}
    (h : l.Pairwise (fun x y => k y ≤ k x)) :
    (insertDesc k a l).Pairwise (fun x y => k y ≤ k x) := by
  induction l with
  | nil => simp [insertDesc]
  | cons b t ih =>
    rw [insertDesc]
    rcases List.pairwise_cons.mp h with ⟨hb, ht⟩
    split
    · rename_i hab
      refine List.pairwise_cons.mpr ⟨?_, h⟩
      intro x hx
      rcases List.mem_cons.mp hx with rfl | hx'
      · exact hab
      · exact le_trans (hb x hx') hab
    · rename_i hab
      refine List.pairwise_cons.mpr ⟨?_, ih ht⟩
      intro x hx
      have hx' : x ∈ a :: t := (insertDesc_perm k a t).mem_iff.mp hx
      rcases List.mem_cons.mp hx' with rfl | hx''
      · omega
      · exact hb x hx''

theorem sorted_sortDesc (k : Str → Nat) (l : List Str) :
    (sortDesc k l).Pairwise (fun x y => k y ≤ k x) := by
  induction l with
  | nil => simp [sortDesc]
  | cons a t ih => exact sorted_insertDesc k a ih

theorem sortDesc_of_sorted (k : Str → Nat) {l : List Str}
    (h : l.Pairwise (fun x y => k y ≤ k x)) : sortDesc k l = l := by
  induction l with
  | nil => rfl
  | cons a t ih =>
    rcases List.pairwise_cons.mp h with ⟨ha, ht⟩
    rw [sortDesc, ih ht]
    cases t with
    | nil => rfl
    | cons b t' =>
      rw [insertDesc, if_pos (ha b (List.mem_cons_self b t'))]

theorem filter_insertDesc (k : Str → Nat) (a : Str) (l : List Str) (n : Nat) :
    (insertDesc k a l).filter (fun x => k x = n) =
      if k a = n then a :: l.filter (fun x => k x = n)
      else l.filter (fun x => k x = n) := by
  induction l with
  | nil =>
    simp only [insertDesc, List.filter]
    split <;> simp_all
  | cons b t ih =>
    rw [insertDesc]
    split
    · rename_i hab
      simp only [List.filter_cons]
      split <;> split <;> simp_all
    · rename_i hab
      simp only [List.filter_cons]
      by_cases hbn : k b = n <;> by_cases han : k a = n <;>
        simp_all [List.filter_cons]

theorem sortDesc_filter_key (k : Str → Nat) (l : List Str) (n : Nat) :
    (sortDesc k l).filter (fun x => k x = n) = l.filter (fun x => k x = n) := by
  induction l with
  | nil => rfl
  | cons a t ih =>
    rw [sortDesc, filter_insertDesc, List.filter_cons]
    split <;> simp_all

/-! ## Claim C9: dimension reordering -/

/-- C9.  Dimension reordering is idempotent; it is the identity when the
definition has at most one dimension or the stats map is empty; otherwise it
sorts the dimensions by descending `total_unique` keeping ties in original
relative order (permutation + descending-sorted + per-key-class filter
stability), and re-derives the time/geo/categorical classification from the
new order. -/
theorem claim_C9_reorder_idempotent_stable
    (S : Schema) (agg : AggregationDefinition) (stats : DimStats) :
    reorder_dimensions_by_cardinality S
        (reorder_dimensions_by_cardinality S agg stats) stats =
      reorder_dimensions_by_cardinality S agg stats ∧
    ((agg.dimensions.length ≤ 1 ∨ stats = []) →
      reorder_dimensions_by_cardinality S agg stats = agg) ∧
    (reorder_dimensions_by_cardinality S agg stats).dimensions.Pairwise
      (fun a b => totalUniqueKey stats b ≤ totalUniqueKey stats a) ∧
    List.Perm (reorder_dimensions_by_cardinality S agg stats).dimensions
      agg.dimensions ∧
    (∀ n : Nat,
      (reorder_dimensions_by_cardinality S agg stats).dimensions.filter
          (fun d => totalUniqueKey stats d = n) =
        agg.dimensions.filter (fun d => totalUniqueKey stats d = n)) ∧
    (¬(agg.dimensions.length ≤ 1 ∨ stats = []) →
      (reorder_dimensions_by_cardinality S agg stats).timeDimension =
          (classify_dimensions S
            (reorder_dimensions_by_cardinality S agg stats).dimensions).1 ∧
      (reorder_dimensions_by_cardinality S agg stats).geoDimension =
          (classify_dimensions S
            (reorder_dimensions_by_cardinality S agg stats).dimensions).2.1 ∧
      (reorder_dimensions_by_cardinality S agg stats).categoricalDimension =
          (classify_dimensions S
            (reorder_dimensions_by_cardinality S agg stats).dimensions).2.2) := by
  by_cases hg : agg.dimensions.isEmpty ∨ agg.dimensions.length ≤ 1 ∨ stats.isEmpty
  · have hgP : agg.dimensions.length ≤ 1 ∨ stats = [] := by
      rcases hg with h1 | h1 | h1
      · exact Or.inl (by rw [List.isEmpty_iff] at h1; simp [h1])
      · exact Or.inl h1
      · exact Or.inr (List.isEmpty_iff.mp h1)
    have hid : reorder_dimensions_by_cardinality S agg stats = agg := by
      rw [reorder_dimensions_by_cardinality, if_pos hg]
    refine ⟨by rw [hid, hid], fun _ => hid, ?_, by rw [hid], fun n => by rw [hid],
      fun hcontra => absurd hgP hcontra⟩
    rw [hid]
    rcases hgP with h1 | h1
    · match hd : agg.dimensions, h1 with
      | [], _ => exact List.Pairwise.nil
      | [d], _ => exact List.pairwise_singleton _ d
    · subst h1
      exact List.pairwise_of_forall (fun _ _ => le_refl 0)
  · have hgP : ¬(agg.dimensions.length ≤ 1 ∨ stats = []) := by
      rintro (h1 | h1)
      · exact hg (Or.inr (Or.inl h1))
      · exact hg (Or.inr (Or.inr (by simp [h1])))
    have hbody : reorder_dimensions_by_cardinality S agg stats =
        { agg with
          dimensions := sortDesc (totalUniqueKey stats) agg.dimensions
          timeDimension :=
            (classify_dimensions S (sortDesc (totalUniqueKey stats) agg.dimensions)).1
          geoDimension :=
            (classify_dimensions S (sortDesc (totalUniqueKey stats) agg.dimensions)).2.1
          categoricalDimension :=
            (classify_dimensions S (sortDesc (totalUniqueKey stats) agg.dimensions)).2.2 } := by
      rw [reorder_dimensions_by_cardinality, if_neg hg]
    have hsorted := sorted_sortDesc (totalUniqueKey stats) agg.dimensions
    have hperm := sortDesc_perm (totalUniqueKey stats) agg.dimensions
    have hfix : sortDesc (totalUniqueKey stats)
        (sortDesc (totalUniqueKey stats) agg.dimensions) =
        sortDesc (totalUniqueKey stats) agg.dimensions :=
      sortDesc_of_sorted _ hsorted
    have hg2 : ¬((reorder_dimensions_by_cardinality S agg stats).dimensions.isEmpty ∨
        (reorder_dimensions_by_cardinality S agg stats).dimensions.length ≤ 1 ∨
        stats.isEmpty) := by
      rw [hbody]
      rintro (h1 | h1 | h1)
      · rw [List.isEmpty_iff] at h1
        have h1' : sortDesc (totalUniqueKey stats) agg.dimensions = [] := by
          simpa using h1
        have hlen := hperm.length_eq
        rw [h1'] at hlen
        exact hg (Or.inl (by
          rw [List.isEmpty_iff]
          exact List.length_eq_zero.mp hlen.symm))
      · have h1' : (sortDesc (totalUniqueKey stats) agg.dimensions).length ≤ 1 := by
          simpa using h1
        exact hg (Or.inr (Or.inl (by rw [← hperm.length_eq]; exact h1')))
      · exact hg (Or.inr (Or.inr h1))
    refine ⟨?_, fun hcontra => absurd hcontra hgP, ?_, ?_, ?_, fun _ => ?_⟩
    · rw [reorder_dimensions_by_cardinality, if_neg hg2, hbody]
      simp only [hfix]
    · rw [hbody]
      exact hsorted
    · rw [hbody]
      exact hperm
    · intro n
      rw [hbody]
      exact sortDesc_filter_key _ _ n
    · rw [hbody]
      exact ⟨rfl, rfl, rfl⟩

/-- A one-dimension definition used as the C9 witness input. -/
def c9Single : AggregationDefinition :=
  { dimensions := [str "borough"]
  , measures := [⟨str "count(1)", str "num_of_requests"⟩] }

/-- Witness for C9: a single-dimension definition is left unchanged. -/
theorem claim_C9_witness :
    reorder_dimensions_by_cardinality defaultSchema c9Single
        [(str "borough", [(str "total_unique", 5)])] = c9Single :=
  (claim_C9_reorder_idempotent_stable defaultSchema c9Single
      [(str "borough", [(str "total_unique", 5)])]).2.1 (Or.inl (by decide))

/-! ## Claim C10: the high-cardinality check skips unknown dimensions -/

/-- C10.  In `all_dimensions_exceed_cardinality`, for a non-empty dimension
list with at least one non-time dimension and a non-empty stats map: the
check passes exactly when every non-time dimension *present in the stats*
exceeds the threshold — a non-time dimension absent from the stats map is
skipped, not counted as below threshold; in particular, when no non-time
dimension appears in the stats at all, the function returns `true`, so the
high-cardinality flag can be set with no cardinality evidence for any of the
query's dimensions. -/
theorem claim_C10_cardinality_check_skips_absent_dimensions
    (S : Schema) (dimensions : List Str) (dimension_stats : List (Str × Nat))
    (threshold : Nat)
    (hdim : dimensions ≠ []) (hstats : dimension_stats ≠ [])
    (hnontime : dimensions.filter (fun d => ¬ S.timeDimensions.contains d) ≠ []) :
    (all_dimensions_exceed_cardinality S dimensions dimension_stats threshold = true ↔
      ∀ d ∈ dimensions, S.timeDimensions.contains d = false →
        ∀ c, List.lookup d dimension_stats = some c → c > threshold) ∧
    ((∀ d ∈ dimensions, S.timeDimensions.contains d = false →
        List.lookup d dimension_stats = none) →
      all_dimensions_exceed_cardinality S dimensions dimension_stats threshold = true) := by
  have hd : dimensions.isEmpty = false := by
    cases h : dimensions.isEmpty
    · rfl
    · exact absurd (List.isEmpty_iff.mp h) hdim
  have hs : dimension_stats.isEmpty = false := by
    cases h : dimension_stats.isEmpty
    · rfl
    · exact absurd (List.isEmpty_iff.mp h) hstats
  have hnt : (dimensions.filter (fun d => ¬ S.timeDimensions.contains d)).isEmpty
      = false := by
    cases h : (dimensions.filter (fun d => ¬ S.timeDimensions.contains d)).isEmpty
    · rfl
    · exact absurd (List.isEmpty_iff.mp h) hnontime
  have hmain : all_dimensions_exceed_cardinality S dimensions dimension_stats
      threshold = true ↔
      ∀ d ∈ dimensions, S.timeDimensions.contains d = false →
        ∀ c, List.lookup d dimension_stats = some c → c > threshold := by
    simp only [all_dimensions_exceed_cardinality, hd, hs, hnt, Bool.or_self,
      Bool.false_eq_true, if_false, ite_false, Bool.or_false, List.all_eq_true]
    constructor
    · intro hall d hdmem hdtime c hlook
      have hmem : d ∈ dimensions.filter (fun d => ¬ S.timeDimensions.contains d) := by
        rw [List.mem_filter]
        refine ⟨hdmem, by simpa using hdtime⟩
      have := hall d hmem
      rw [hlook] at this
      simpa using this
    · intro hall d hdmem
      rw [List.mem_filter] at hdmem
      cases hlook : List.lookup d dimension_stats with
      | none => simp
      | some c =>
        have := hall d hdmem.1 (by simpa using hdmem.2) c hlook
        simpa using this
  refine ⟨hmain, fun habs => hmain.mpr ?_⟩
  intro d hdmem hdtime c hlook
  rw [habs d hdmem hdtime] at hlook
  cases hlook

/-- Witness for C10: two non-time dimensions, neither of which appears in the
(non-empty) stats map, yet the high-cardinality check passes. -/
theorem claim_C10_witness :
    all_dimensions_exceed_cardinality defaultSchema
      [str "complaint_type", str "agency_name"]
      [(str "descriptor", 40)] CARDINALITY_THRESHOLD = true :=
  (claim_C10_cardinality_check_skips_absent_dimensions defaultSchema
      [str "complaint_type", str "agency_name"] [(str "descriptor", 40)]
      CARDINALITY_THRESHOLD (by decide) (by decide) (by decide)).2
    (by decide)

/-! ## Claim C3: classifier invariants -/

/-- The running invariant of the classifier's rule chain: the ideal chart is
among the available charts, and `"table"` is still among them. -/
def VizI (p : List Str × Str) : Prop :=
  p.2 ∈ p.1 ∧ str "table" ∈ p.1

theorem VizI.append_ideal {p : List Str × Str} (hp : VizI p) {xs : List Str}
    {y : Str} (hy : y ∈ xs) : VizI (p.1 ++ xs, y) :=
  ⟨List.mem_append_right _ hy, List.mem_append_left _ hp.2⟩

theorem VizI.append_keep {p : List Str × Str} (hp : VizI p) (xs : List Str) :
    VizI (p.1 ++ xs, p.2) :=
  ⟨List.mem_append_left _ hp.1, List.mem_append_left _ hp.2⟩

theorem VizI.ite {c : Prop} [Decidable c] {q p : List Str × Str}
    (hq : VizI q) (hp : VizI p) : VizI (if c then q else p) := by
  split <;> assumption

/-- Point-geometry query: single `location` dimension with one measure. -/
def heatmapExample : AggregationDefinition :=
  { dimensions := [str "location"]
  , measures := [⟨str "count(1)", str "num_of_requests"⟩] }

/-- Counterexample to C3 as stated: for the point-geometry heatmap query the
classifier removes `"table"` from the available chart types, so `"table"` is
not always a member. -/
theorem claim_C3_counterexample :
    get_viz_recommendations defaultSchema heatmapExample none none =
      ([str "heatmap"], str "heatmap") ∧
    str "table" ∉ (get_viz_recommendations defaultSchema heatmapExample none none).1 := by
  refine ⟨by decide, ?_⟩
  intro hmem
  rw [(by decide : get_viz_recommendations defaultSchema heatmapExample none none =
    ([str "heatmap"], str "heatmap"))] at hmem
  exact absurd hmem (by decide)

set_option maxHeartbeats 2000000 in
/-- C3 (amended).  The ideal chart type is always a member of the available
chart types; `"table"` is a member except in the two short-circuits the code
itself carves out: the pure-text response (where the result is exactly
`["text"]`) and the point-geometry heatmap rule (which removes `"table"`
and makes `"heatmap"` ideal). -/
theorem claim_C3_amended_chart_invariants (S : Schema) (agg_def : AggregationDefinition)
    (dimension_stats : Option (List (Str × Nat))) (dataset_length : Option Nat) :
    (get_viz_recommendations S agg_def dimension_stats dataset_length).2 ∈
      (get_viz_recommendations S agg_def dimension_stats dataset_length).1 ∧
    (str "table" ∈ (get_viz_recommendations S agg_def dimension_stats dataset_length).1 ∨
     (get_viz_recommendations S agg_def dimension_stats dataset_length).1 = [str "text"] ∨
     (get_viz_recommendations S agg_def dimension_stats dataset_length).2 = str "heatmap") := by
  rw [get_viz_recommendations]
  split
  · exact ⟨by decide, Or.inl (by decide)⟩
  · lift_lets
    extract_lets p0 dimensions measures time_dim geo_dim cat_dim dim_count
      time_count geo_count cat_count measure_count additive_measure_count
      all_additive_measures is_topn high_cardinality is_not_location
      p1 p2 p3 p4 p5 geo_name p6
    have h0 : VizI p0 := ⟨by decide, by decide⟩
    have h1 : VizI p1 := by
      unfold_let p1
      exact VizI.ite (h0.append_ideal (List.mem_singleton_self _)) h0
    have h2 : VizI p2 := by
      unfold_let p2
      refine VizI.ite (VizI.ite ?_ ?_) h1
      · exact (h1.append_ideal (List.mem_singleton_self _)).append_keep _
      · exact h1.append_ideal (List.mem_singleton_self _)
    have h3 : VizI p3 := by
      unfold_let p3
      exact VizI.ite (h2.append_ideal (List.mem_singleton_self _)) h2
    have h4 : VizI p4 := by
      unfold_let p4
      refine VizI.ite (VizI.ite ?_ ?_) h3
      · exact (h3.append_ideal (List.mem_singleton_self _)).append_ideal
          (List.mem_cons_self _ _)
      · exact h3.append_ideal (List.mem_singleton_self _)
    have h5 : VizI p5 := by
      unfold_let p5
      exact VizI.ite (h4.append_keep _) h4
    split
    · exact ⟨by decide, Or.inr (Or.inl rfl)⟩
    · split
      · exact ⟨h0.1, Or.inl h0.2⟩
      · split
        · exact ⟨h0.1, Or.inl h0.2⟩
        · unfold_let p6
          split
          · split
            · exact ⟨(List.mem_erase_of_ne
                (show str "heatmap" ≠ str "table" by decide)).mpr
                (List.mem_append_right _ (List.mem_singleton_self _)),
                Or.inr (Or.inr rfl)⟩
            · split
              · exact ⟨List.mem_append_right _ (List.mem_singleton_self _),
                  Or.inl (List.mem_append_left _ h5.2)⟩
              · exact ⟨h5.1, Or.inl h5.2⟩
          · exact ⟨h5.1, Or.inl h5.2⟩

/-! ## Claim C4: high-cardinality, two categorical dimensions -/

/-- Two categorical dimensions with 40 distinct values each, one measure. -/
def c4Example : AggregationDefinition :=
  { dimensions := [str "complaint_type", str "agency_name"]
  , measures := [⟨str "count(1)", str "num_of_requests"⟩] }

/-- The cardinality stats of scenario C: both dimensions above threshold. -/
def c4Stats : List (Str × Nat) :=
  [(str "complaint_type", 40), (str "agency_name", 40)]

/-- Counterexample to C4 as stated: with 2 categorical dimensions of
cardinality 40 and one measure, the grouped/stacked bar charts are indeed
suppressed, but the ideal chart type is `"nested_bar_chart"`, not
`"table"` — the nested-bar rule fired before the grouped-bar rule was
skipped, and nothing demotes it. -/
theorem claim_C4_counterexample :
    get_viz_recommendations defaultSchema c4Example (some c4Stats) (some 100) =
      ([str "table", str "nested_bar_chart", str "treemap"],
        str "nested_bar_chart") ∧
    (get_viz_recommendations defaultSchema c4Example (some c4Stats)
        (some 100)).2 ≠ str "table" := by
  refine ⟨by decide, ?_⟩
  rw [(by decide : get_viz_recommendations defaultSchema c4Example
    (some c4Stats) (some 100) =
      ([str "table", str "nested_bar_chart", str "treemap"],
        str "nested_bar_chart"))]
  decide

set_option maxHeartbeats 1000000 in
/-- C4 (amended).  For every query with exactly 2 categorical (non-time)
dimensions and 1 measure whose high-cardinality flag holds, the classifier
suppresses `grouped_bar_chart`, `stacked_bar_chart` and
`stacked_bar_chart_100`, and the ideal chart type is `"nested_bar_chart"`
(the nested-bar rule wins; the ideal is not demoted to `"table"`). -/
theorem claim_C4_amended_high_cardinality_suppression
    (S : Schema) (agg_def : AggregationDefinition) (d1 d2 : Str) (m : Measure)
    (stats : List (Str × Nat)) (dimension_stats : Option (List (Str × Nat)))
    (dataset_length : Option Nat)
    (hdims : agg_def.dimensions = [d1, d2])
    (hmeas : agg_def.measures = [m])
    (hrt : ¬ agg_def.response_type = str "text")
    (ht1 : S.timeDimensions.contains d1 = false)
    (ht2 : S.timeDimensions.contains d2 = false)
    (hstats : dimension_stats = some stats)
    (hhigh : all_dimensions_exceed_cardinality S [d1, d2] stats
      CARDINALITY_THRESHOLD = true)
    (hdl : ¬ dataset_length = some 1) :
    (get_viz_recommendations S agg_def dimension_stats dataset_length).2 =
        str "nested_bar_chart" ∧
    str "grouped_bar_chart" ∉
      (get_viz_recommendations S agg_def dimension_stats dataset_length).1 ∧
    str "stacked_bar_chart" ∉
      (get_viz_recommendations S agg_def dimension_stats dataset_length).1 ∧
    str "stacked_bar_chart_100" ∉
      (get_viz_recommendations S agg_def dimension_stats dataset_length).1 := by
  rcases hviz : get_viz_recommendations S agg_def dimension_stats dataset_length
    with ⟨av, id⟩
  rw [get_viz_recommendations, hdims, hmeas, hstats] at hviz
  rw [if_neg hdl, if_neg hrt] at hviz
  have hm1 : d1 ∉ S.timeDimensions := by simpa using ht1
  have hm2 : d2 ∉ S.timeDimensions := by simpa using ht2
  simp [classify_dimensions, hm1, hm2, hhigh] at hviz
  split at hviz <;>
    (cases hviz; exact ⟨rfl, by decide, by decide, by decide⟩)

/-- Witness for the amended C4 at scenario C's concrete inputs. -/
theorem claim_C4_witness :
    (get_viz_recommendations defaultSchema c4Example (some c4Stats)
        (some 100)).2 = str "nested_bar_chart" ∧
    str "grouped_bar_chart" ∉
      (get_viz_recommendations defaultSchema c4Example (some c4Stats)
        (some 100)).1 ∧
    str "stacked_bar_chart" ∉
      (get_viz_recommendations defaultSchema c4Example (some c4Stats)
        (some 100)).1 ∧
    str "stacked_bar_chart_100" ∉
      (get_viz_recommendations defaultSchema c4Example (some c4Stats)
        (some 100)).1 :=
  claim_C4_amended_high_cardinality_suppression defaultSchema c4Example
    (str "complaint_type") (str "agency_name")
    ⟨str "count(1)", str "num_of_requests"⟩ c4Stats (some c4Stats) (some 100)
    rfl rfl (by decide) (by decide) (by decide) rfl (by decide) (by decide)

/-! ## Claim C5: one time dimension plus one categorical dimension -/

/-- Scenario B: month plus borough (3 distinct values), one additive
measure, cardinality below threshold. -/
def c5Example : AggregationDefinition :=
  { dimensions := [str "created_month", str "borough"]
  , measures := [⟨str "count(1)", str "num_of_requests"⟩] }

/-- The borough cardinality is below the threshold. -/
def c5Stats : List (Str × Nat) := [(str "borough", 3)]

/-- Counterexample to C5 as stated: the stacked area charts are added to the
available types, but the ideal chart stays `"line_chart"` — the classifier
never promotes `"stacked_area_chart"` to ideal. -/
theorem claim_C5_counterexample :
    get_viz_recommendations defaultSchema c5Example (some c5Stats) (some 24) =
      ([str "table", str "line_chart", str "stacked_area_chart",
        str "stacked_area_chart_100"], str "line_chart") ∧
    (get_viz_recommendations defaultSchema c5Example (some c5Stats)
        (some 24)).2 ≠ str "stacked_area_chart" := by
  refine ⟨by decide, ?_⟩
  rw [(by decide : get_viz_recommendations defaultSchema c5Example
    (some c5Stats) (some 24) =
      ([str "table", str "line_chart", str "stacked_area_chart",
        str "stacked_area_chart_100"], str "line_chart"))]
  decide

set_option maxHeartbeats 1000000 in
/-- C5 (amended).  For every query with exactly 1 time dimension and exactly
1 categorical dimension — in either list order — and exactly 1 additive
measure, cardinality not flagged high, the classifier returns exactly the
available set {table, line_chart, stacked_area_chart,
stacked_area_chart_100} with ideal chart type `"line_chart"` (the stacked
area variants are available but the ideal stays `line_chart`). -/
theorem claim_C5_amended_time_categorical_additive
    (S : Schema) (agg_def : AggregationDefinition) (t c : Str) (m : Measure)
    (dimension_stats : Option (List (Str × Nat))) (dataset_length : Option Nat)
    (hdims : agg_def.dimensions = [t, c] ∨ agg_def.dimensions = [c, t])
    (hmeas : agg_def.measures = [m])
    (hrt : ¬ agg_def.response_type = str "text")
    (htime : S.timeDimensions.contains t = true)
    (hcat : S.timeDimensions.contains c = false)
    (hadd : is_measure_additive m.«alias» = true)
    (hhigh : (dimension_stats.isSome &&
      all_dimensions_exceed_cardinality S agg_def.dimensions
        (dimension_stats.getD []) CARDINALITY_THRESHOLD) = false)
    (hdl : ¬ dataset_length = some 1) :
    get_viz_recommendations S agg_def dimension_stats dataset_length =
      ([str "table", str "line_chart", str "stacked_area_chart",
        str "stacked_area_chart_100"], str "line_chart") := by
  have hmt : t ∈ S.timeDimensions := by simpa using htime
  have hmc : c ∉ S.timeDimensions := by simpa using hcat
  rcases hviz : get_viz_recommendations S agg_def dimension_stats dataset_length
    with ⟨av, id⟩
  rcases hdims with hd | hd <;>
    (rw [get_viz_recommendations, hd, hmeas] at hviz
     rw [hd] at hhigh
     rw [if_neg hdl, if_neg hrt] at hviz
     simp [classify_dimensions, hmt, hmc, hadd, hhigh] at hviz
     obtain ⟨h1, h2⟩ := hviz
     subst h1
     subst h2
     rfl)

/-! ## Claim C6: implicit quality filters -/

/-- Dropping a left-most block keeps a five-fold append as a suffix. -/
theorem suffix_five (a w p q r s : Str) :
    (((w ++ p) ++ q) ++ r) ++ s <:+ ((((a ++ w) ++ p) ++ q) ++ r) ++ s := by
  simpa [List.append_assoc] using
    List.suffix_append a (w ++ (p ++ (q ++ (r ++ s))))

/-- A string-typed dimension contributes its `!= 'Unspecified'` conjunct. -/
theorem mem_quality_filters_string {S : Schema} {dims : List Str} {d : Str}
    (hd : d ∈ dims)
    (hdt : List.lookup d S.dimensionTypes = some (str "string")) :
    (d ++ str " != 'Unspecified'") ∈ quality_filters S dims := by
  rw [quality_filters, List.mem_filterMap]
  exact ⟨d, hd, by rw [hdt]; simp⟩

/-- A schema-known non-string dimension contributes its `IS NOT NULL`
conjunct. -/
theorem mem_quality_filters_other {S : Schema} {dims : List Str} {d dt : Str}
    (hd : d ∈ dims) (hdt : List.lookup d S.dimensionTypes = some dt)
    (hne : dt ≠ str "string") :
    (d ++ str " IS NOT NULL") ∈ quality_filters S dims := by
  rw [quality_filters, List.mem_filterMap]
  exact ⟨d, hd, by rw [hdt]; simp [hne]⟩

set_option maxHeartbeats 2000000 in
/-- Anything inside the joined quality condition survives into the
pre-limit SQL (whether or not a `WHERE` from the pre-filters exists). -/
theorem infix_sqlBeforeLimit_of_quality {S : Schema}
    {defn : AggregationDefinition} {table_name x : Str}
    (hqf : (quality_filters S defn.dimensions).isEmpty = false)
    (hx : x <:+: pyjoin (str " AND ") (quality_filters S defn.dimensions)) :
    x <:+: sqlBeforeLimit S defn table_name := by
  have key1 : ∀ s : Str, x <:+: s ++ str " AND (" ++
      pyjoin (str " AND ") (quality_filters S defn.dimensions) ++ str ")" :=
    fun s => hx.trans (List.infix_append _ _ _)
  have key2 : ∀ s : Str, x <:+: s ++ str "\nWHERE " ++
      pyjoin (str " AND ") (quality_filters S defn.dimensions) :=
    fun s => hx.trans (List.suffix_append _ _).isInfix
  simp only [sqlBeforeLimit, hqf, Bool.false_eq_true, not_false_eq_true, if_true]
  by_cases hw : defn.preAggregationFilters.isEmpty <;>
    by_cases hd : defn.dimensions.isEmpty <;>
    by_cases hp : defn.postAggregationFilters.isEmpty <;>
    by_cases ho : (_build_order_clause S defn).isEmpty <;>
    simp only [hw, hd, hp, ho, Bool.true_eq_false, Bool.false_eq_true,
      not_false_eq_true, not_true_eq_false, if_true, if_false, ite_true, ite_false] <;>
    (repeat (first | exact key1 _ | exact key2 _ | apply infix_extend))

set_option maxHeartbeats 2000000 in
/-- When both the pre-aggregation filters and the quality filters are
non-empty, the WHERE clause of the pre-limit SQL is literally
`WHERE {preFilters} AND ({quality})` (with its leading newline): the quality
side is parenthesised, the pre-filter side is spliced verbatim. -/
theorem infix_sqlBeforeLimit_where_quality {S : Schema}
    {defn : AggregationDefinition} {table_name : Str}
    (hpre : defn.preAggregationFilters.isEmpty = false)
    (hqf : (quality_filters S defn.dimensions).isEmpty = false) :
    str "\nWHERE " ++ defn.preAggregationFilters ++ str " AND (" ++
        pyjoin (str " AND ") (quality_filters S defn.dimensions) ++ str ")" <:+:
      sqlBeforeLimit S defn table_name := by
  have base :
      str "\nWHERE " ++ defn.preAggregationFilters ++ str " AND (" ++
          pyjoin (str " AND ") (quality_filters S defn.dimensions) ++ str ")" <:+:
        str "SELECT\n  " ++ (_build_select_clause defn ++ _build_metadata_clauses defn) ++
          str "\nFROM " ++ table_name ++ str "\nWHERE " ++
          defn.preAggregationFilters ++ str " AND (" ++
          pyjoin (str " AND ") (quality_filters S defn.dimensions) ++ str ")" := by
    have h5 := suffix_five
      (str "SELECT\n  " ++ (_build_select_clause defn ++ _build_metadata_clauses defn) ++
        str "\nFROM " ++ table_name)
      (str "\nWHERE ") defn.preAggregationFilters (str " AND (")
      (pyjoin (str " AND ") (quality_filters S defn.dimensions)) (str ")")
    exact h5.isInfix
  simp only [sqlBeforeLimit, hpre, hqf, Bool.false_eq_true, not_false_eq_true,
    if_true]
  generalize hB : str "SELECT\n  " ++
      (_build_select_clause defn ++ _build_metadata_clauses defn) ++
      str "\nFROM " ++ table_name ++ str "\nWHERE " ++
      defn.preAggregationFilters ++ str " AND (" ++
      pyjoin (str " AND ") (quality_filters S defn.dimensions) ++ str ")" = B
    at base ⊢
  by_cases hd : defn.dimensions.isEmpty <;>
    by_cases hp : defn.postAggregationFilters.isEmpty <;>
    by_cases ho : (_build_order_clause S defn).isEmpty <;>
    simp only [hd, hp, ho, Bool.true_eq_false, Bool.false_eq_true,
      not_false_eq_true, not_true_eq_false, if_true, if_false, ite_true, ite_false] <;>
    (repeat (first | exact base | apply infix_extend))

set_option maxHeartbeats 1000000 in
/-- C6 (amended).  `generate_sql` adds, for each dimension of schema type
`string`, the conjunct `dim != 'Unspecified'`, and for each other
schema-known dimension the conjunct `dim IS NOT NULL`; when
`preAggregationFilters` is also non-empty the two sides are combined as
`WHERE {preFilters} AND ({quality})`: only the quality side is wrapped in
parentheses — the pre-filter side is spliced verbatim without wrapping, so a
top-level `OR` inside `preAggregationFilters` binds across the added `AND`. -/
theorem claim_C6_amended_quality_filters
    (S : Schema) (defn : AggregationDefinition) (table_name : Str) :
    (∀ d ∈ defn.dimensions, ∀ (c : Char) (t : Str), d = c :: t →
      isPySpace c = false →
      (List.lookup d S.dimensionTypes = some (str "string") →
        d ++ str " != 'Unspecified'" <:+: generate_sql S defn table_name) ∧
      (∀ dt, List.lookup d S.dimensionTypes = some dt → dt ≠ str "string" →
        d ++ str " IS NOT NULL" <:+: generate_sql S defn table_name)) ∧
    (defn.preAggregationFilters ≠ [] →
      quality_filters S defn.dimensions ≠ [] →
      str "WHERE " ++ defn.preAggregationFilters ++ str " AND (" ++
          pyjoin (str " AND ") (quality_filters S defn.dimensions) ++ str ")" <:+:
        generate_sql S defn table_name) := by
  constructor
  · intro d hd c t hdc hcs
    constructor
    · intro hdt
      have hmem := mem_quality_filters_string hd hdt
      have hqf : (quality_filters S defn.dimensions).isEmpty = false := by
        cases hq : (quality_filters S defn.dimensions).isEmpty
        · rfl
        · rw [List.isEmpty_iff.mp hq] at hmem
          exact absurd hmem (List.not_mem_nil _)
      have hsql := @infix_sqlBeforeLimit_of_quality S defn table_name _ hqf
        (infix_pyjoin (str " AND ") hmem)
      refine infix_generate_sql_of_ends ?_ ?_ ?_ hsql
      · subst hdc; simp
      · subst hdc
        rw [List.cons_append, List.headD_cons]
        exact hcs
      · rw [show str " != 'Unspecified'" = str " != 'Unspecified" ++ ['\''] from rfl,
          ← List.append_assoc, List.getLastD_concat]
        decide
    · intro dt hdt hdtne
      have hmem := mem_quality_filters_other hd hdt hdtne
      have hqf : (quality_filters S defn.dimensions).isEmpty = false := by
        cases hq : (quality_filters S defn.dimensions).isEmpty
        · rfl
        · rw [List.isEmpty_iff.mp hq] at hmem
          exact absurd hmem (List.not_mem_nil _)
      have hsql := @infix_sqlBeforeLimit_of_quality S defn table_name _ hqf
        (infix_pyjoin (str " AND ") hmem)
      refine infix_generate_sql_of_ends ?_ ?_ ?_ hsql
      · subst hdc; simp
      · subst hdc
        rw [List.cons_append, List.headD_cons]
        exact hcs
      · rw [show str " IS NOT NULL" = str " IS NOT NUL" ++ ['L'] from rfl,
          ← List.append_assoc, List.getLastD_concat]
        decide
  · intro hpre hqfne
    have hpreB : defn.preAggregationFilters.isEmpty = false := by
      cases hq : defn.preAggregationFilters.isEmpty
      · rfl
      · exact absurd (List.isEmpty_iff.mp hq) hpre
    have hqfB : (quality_filters S defn.dimensions).isEmpty = false := by
      cases hq : (quality_filters S defn.dimensions).isEmpty
      · rfl
      · exact absurd (List.isEmpty_iff.mp hq) hqfne
    have hbig := @infix_sqlBeforeLimit_where_quality S defn table_name
      hpreB hqfB
    have hdrop : str "WHERE " ++ defn.preAggregationFilters ++ str " AND (" ++
        pyjoin (str " AND ") (quality_filters S defn.dimensions) ++ str ")" <:+:
        str "\nWHERE " ++ defn.preAggregationFilters ++ str " AND (" ++
        pyjoin (str " AND ") (quality_filters S defn.dimensions) ++ str ")" := by
      have heq : str "\nWHERE " ++ defn.preAggregationFilters ++ str " AND (" ++
          pyjoin (str " AND ") (quality_filters S defn.dimensions) ++ str ")" =
          '\n' :: (str "WHERE " ++ defn.preAggregationFilters ++ str " AND (" ++
          pyjoin (str " AND ") (quality_filters S defn.dimensions) ++ str ")") := by
        simp [show str "\nWHERE " = '\n' :: str "WHERE " from rfl,
          List.cons_append, List.append_assoc]
      rw [heq]
      exact List.infix_cons (List.infix_refl _)
    refine infix_generate_sql_of_ends ?_ ?_ ?_ (hdrop.trans hbig)
    · exact List.append_ne_nil_of_right_ne_nil _ (by decide)
    · rw [show str "WHERE " = 'W' :: str "HERE " from rfl]
      rw [List.cons_append, List.cons_append, List.cons_append,
        List.cons_append, List.headD_cons]
      decide
    · rw [show str ")" = [')'] from rfl, List.getLastD_concat]
      decide

/-- A definition whose pre-filter has a top-level `OR` next to a quality
filter. -/
def c6Example : AggregationDefinition :=
  { dimensions := [str "complaint_type"]
  , measures := []
  , preAggregationFilters := str "borough = 'QUEENS' OR borough = 'BRONX'" }

set_option maxRecDepth 20000 in
/-- Counterexample to C6 as stated: the generated SQL splices the pre-filter
verbatim (`WHERE {pre} AND ({quality})`) and never wraps the pre-filter side
in parentheses, so the precedence of its top-level `OR` is not preserved
against the appended `AND`. -/
theorem claim_C6_counterexample :
    strContains (generate_sql defaultSchema c6Example (str "requests_311"))
      (str "WHERE borough = 'QUEENS' OR borough = 'BRONX' AND (complaint_type != 'Unspecified')")
      = true ∧
    strContains (generate_sql defaultSchema c6Example (str "requests_311"))
      (str "(borough = 'QUEENS' OR borough = 'BRONX')") = false := by
  constructor
  · decide
  · decide

/-- Witness for the amended C6 at the concrete example definition. -/
theorem claim_C6_witness :
    str "complaint_type" ++ str " != 'Unspecified'" <:+:
      generate_sql defaultSchema c6Example (str "requests_311") :=
  ((claim_C6_amended_quality_filters defaultSchema c6Example
      (str "requests_311")).1 (str "complaint_type") (by decide)
    'c' (str "omplaint_type") rfl (by decide)).1 (by decide)

/-! ## Claim C7: executor result shaping -/

/-- The single result row of a point-location query, exactly as the
compiler's SELECT list lays it out for `dimensions = ["location"]` and the
single measure `num_of_requests`: the data columns, the
`metadata_`-prefixed window-function columns, and the two un-prefixed
reference columns injected by `_build_metadata_clauses` — `reference_borough`
plus the `reference_neighborhood` aggregate it appends whenever a dimension
contains `location`. -/
def c7Row (vLoc vCnt vAvg vMed vStd vTop vBot vLim vMin vMax vRef vRefN :
    Str) : Row :=
  [ (str "location", vLoc)
  , (str "num_of_requests", vCnt)
  , (str "metadata_avg_num_of_requests", vAvg)
  , (str "metadata_median_num_of_requests", vMed)
  , (str "metadata_stddev_num_of_requests", vStd)
  , (str "metadata_top_3_num_of_requests", vTop)
  , (str "metadata_bottom_3_num_of_requests", vBot)
  , (str "metadata_result_exceeds_limit", vLim)
  , (str "metadata_min_created_date", vMin)
  , (str "metadata_max_created_date", vMax)
  , (str "reference_borough", vRef)
  , (str "reference_neighborhood", vRefN) ]

set_option maxRecDepth 20000 in
/-- The `c7Row` column names are exactly the ones `_build_metadata_clauses`
injects for the point-location definition, `reference_neighborhood`
included. -/
theorem c7Row_columns_from_compiler :
    (strContains (_build_metadata_clauses heatmapExample)
      (str "as metadata_avg_num_of_requests") = true) ∧
    (strContains (_build_metadata_clauses heatmapExample)
      (str "as metadata_min_created_date") = true) ∧
    (strContains (_build_metadata_clauses heatmapExample)
      (str "as reference_borough") = true) ∧
    (strContains (_build_metadata_clauses heatmapExample)
      (str "as reference_neighborhood") = true) := by
  refine ⟨by decide, by decide, by decide, by decide⟩

set_option maxRecDepth 20000 in
/-- Counterexample to C7 as stated: the executor removes only the
`metadata_`-prefixed columns, so the compiler-injected `reference_borough`
column is left in the returned data rows, and the parsed metadata contains
no reference field. -/
theorem claim_C7_counterexample :
    (str "reference_borough", str "BROOKLYN") ∈
      (executorPostProcess [c7Row (str "POINT(-73.9 40.7)") (str "12")
        (str "3.1") (str "2.0") (str "1.4") (str "[]") (str "[]")
        (str "false") (str "2020-01-01") (str "2020-12-31")
        (str "BROOKLYN") (str "Astoria")]).1.headD [] ∧
    List.lookup (str "reference_borough")
      ((executorPostProcess [c7Row (str "POINT(-73.9 40.7)") (str "12")
        (str "3.1") (str "2.0") (str "1.4") (str "[]") (str "[]")
        (str "false") (str "2020-01-01") (str "2020-12-31")
        (str "BROOKLYN") (str "Astoria")]).2.statistics) = none := by
  refine ⟨by decide, by decide⟩

/-- Every key of `statSet measure stat v acc` is the inserted measure key or
a key already present in `acc`. -/
theorem mem_keys_statSet (meas stat v k : Str) :
    ∀ (acc : List (Str × List (Str × Str))),
      k ∈ (statSet meas stat v acc).map Prod.fst →
      k = meas ∨ k ∈ acc.map Prod.fst := by
  intro acc
  induction acc with
  | nil =>
      intro h
      simp [statSet] at h
      exact Or.inl h
  | cons p t ih =>
      obtain ⟨k1, inner⟩ := p
      intro h
      rw [statSet] at h
      by_cases hk : k1 = meas
      · rw [if_pos hk] at h
        simp only [List.map_cons, List.mem_cons] at h ⊢
        rcases h with h | h
        · exact Or.inl (h.trans hk)
        · exact Or.inr (Or.inr h)
      · rw [if_neg hk] at h
        simp only [List.map_cons, List.mem_cons] at h ⊢
        rcases h with h | h
        · exact Or.inr (Or.inl h)
        · rcases ih h with h1 | h1
          · exact Or.inl h1
          · exact Or.inr (Or.inr h1)

/-- Every key produced by the statistics fold of
`_extract_metadata_from_results` comes from splitting one of the folded
column names (after stripping the `metadata_` prefix) at its first
underscore, or was already a key of the accumulator. -/
theorem keys_foldl_extract (df : Df) :
    ∀ (l : List Str) (acc : List (Str × List (Str × Str))) (k : Str),
      k ∈ ((l.foldl (fun acc col =>
          if col ≠ str "metadata_min_created_date" ∧
              col ≠ str "metadata_max_created_date" then
            match splitOnce '_' (pyreplace (str "metadata_") [] col) with
            | some (stat_name, measure_name) =>
                statSet measure_name stat_name (df_iloc0 df col) acc
            | none => acc
          else acc) acc).map Prod.fst) →
      k ∈ acc.map Prod.fst ∨
        ∃ col ∈ l, ∃ st : Str,
          splitOnce '_' (pyreplace (str "metadata_") [] col) = some (st, k) := by
  intro l
  induction l with
  | nil =>
      intro acc k h
      exact Or.inl h
  | cons c t ih =>
      intro acc k h
      rw [List.foldl_cons] at h
      rcases ih _ k h with h1 | h1
      · by_cases hc : c ≠ str "metadata_min_created_date" ∧
            c ≠ str "metadata_max_created_date"
        · rw [if_pos hc] at h1
          rcases hsp : splitOnce '_' (pyreplace (str "metadata_") [] c) with
            _ | ⟨st, ms⟩
          · rw [hsp] at h1
            exact Or.inl h1
          · rw [hsp] at h1
            rcases mem_keys_statSet ms st (df_iloc0 df c) k acc h1 with h2 | h2
            · exact Or.inr ⟨c, List.mem_cons_self _ _, st, by rw [hsp, h2]⟩
            · exact Or.inl h2
        · rw [if_neg hc] at h1
          exact Or.inl h1
      · obtain ⟨col, hcol, st, hst⟩ := h1
        exact Or.inr ⟨col, List.mem_cons_of_mem _ hcol, st, hst⟩

set_option maxRecDepth 20000 in
/-- C7 (amended).  For every result frame whose rows share the leading
row's column layout, the executor removes from every returned row exactly
the `metadata_`-prefixed entries (so every other entry — in particular the
un-prefixed `reference_*` columns — is retained in place); every statistics
key of the parsed metadata derives from a `metadata_`-prefixed column of the
frame, split after the prefix at its first underscore, so no other column
ever enters the metadata; on a non-empty frame carrying the two
`metadata_*_created_date` columns the date range is read from the leading
row; and on the concrete point-location layout the keying is
`avg`/`median`/`stddev` under the measure alias, `top_3`/`bottom_3` under
`3_{alias}`, the size indicator under `exceeds_limit`, with
`reference_borough` and `reference_neighborhood` left in the data rows. -/
theorem claim_C7_amended_metadata_extraction
    (df : Df) (huniform : ∀ row ∈ df, row.map Prod.fst = df_columns df) :
    ((executorPostProcess df).1 =
      df.map (fun row =>
        row.filter (fun kv => !(str "metadata_").isPrefixOf kv.1))) ∧
    (∀ p ∈ (executorPostProcess df).2.statistics,
      ∃ col ∈ df_columns df, (str "metadata_").isPrefixOf col = true ∧
        ∃ st : Str, splitOnce '_' (pyreplace (str "metadata_") [] col) =
          some (st, p.1)) ∧
    (0 < df.length →
      (df_columns df).contains (str "metadata_min_created_date") = true →
      (df_columns df).contains (str "metadata_max_created_date") = true →
      (executorPostProcess df).2.createdDateRange =
        some (df_iloc0 df (str "metadata_min_created_date"),
              df_iloc0 df (str "metadata_max_created_date"))) ∧
    (∀ vLoc vCnt vAvg vMed vStd vTop vBot vLim vMin vMax vRef vRefN : Str,
      executorPostProcess
          [c7Row vLoc vCnt vAvg vMed vStd vTop vBot vLim vMin vMax vRef
            vRefN] =
        ([[ (str "location", vLoc)
          , (str "num_of_requests", vCnt)
          , (str "reference_borough", vRef)
          , (str "reference_neighborhood", vRefN) ]],
         { createdDateRange := some (vMin, vMax)
         , statistics :=
            [ (str "num_of_requests",
                [(str "avg", vAvg), (str "median", vMed), (str "stddev", vStd)])
            , (str "3_num_of_requests",
                [(str "top", vTop), (str "bottom", vBot)])
            , (str "exceeds_limit", [(str "result", vLim)]) ] })) := by
  refine ⟨?_, ?_, ?_, ?_⟩
  · by_cases hlen : 0 < df.length
    · simp only [executorPostProcess, hlen, if_true]
      apply List.map_congr_left
      intro row hrow
      apply List.filter_congr
      intro kv hkv
      have hcol : kv.1 ∈ df_columns df := by
        rw [← huniform row hrow]
        exact List.mem_map_of_mem Prod.fst hkv
      by_cases hpre : (str "metadata_").isPrefixOf kv.1 = true
      · have hmem : kv.1 ∈ (df_columns df).filter
            (fun c => (str "metadata_").isPrefixOf c) :=
          List.mem_filter.mpr ⟨hcol, hpre⟩
        simp [hmem, hpre]
      · have hmem : kv.1 ∉ (df_columns df).filter
            (fun c => (str "metadata_").isPrefixOf c) := fun hm =>
          hpre (List.mem_filter.mp hm).2
        simp [hmem, hpre]
    · have hnil : df = [] := by
        cases df with
        | nil => rfl
        | cons a t => exact absurd (by simp) hlen
      subst hnil
      rfl
  · intro p hp
    by_cases hlen : 0 < df.length
    · simp only [executorPostProcess, hlen, if_true] at hp
      simp only [_extract_metadata_from_results] at hp
      by_cases hemp : ((df_columns df).filter
          (fun c => (str "metadata_").isPrefixOf c)).isEmpty = true
      · rw [if_pos hemp] at hp
        simp at hp
      · rw [if_neg hemp] at hp
        have hk := keys_foldl_extract df
          ((df_columns df).filter (fun c => (str "metadata_").isPrefixOf c))
          [] p.1 (List.mem_map_of_mem Prod.fst hp)
        rcases hk with hk | hk
        · simp at hk
        · obtain ⟨col, hcolmem, st, hst⟩ := hk
          have hcf := List.mem_filter.mp hcolmem
          exact ⟨col, hcf.1, hcf.2, st, hst⟩
    · simp only [executorPostProcess, if_neg hlen] at hp
      simp at hp
  · intro hlen hmin hmax
    have hminmem : str "metadata_min_created_date" ∈ df_columns df := by
      simpa using hmin
    have hfmem : str "metadata_min_created_date" ∈ (df_columns df).filter
        (fun c => (str "metadata_").isPrefixOf c) :=
      List.mem_filter.mpr ⟨hminmem, by decide⟩
    have hemp : ¬ ((df_columns df).filter
        (fun c => (str "metadata_").isPrefixOf c)).isEmpty = true := by
      intro h
      rw [List.isEmpty_iff] at h
      rw [h] at hfmem
      simp at hfmem
    simp only [executorPostProcess, hlen, if_true]
    simp only [_extract_metadata_from_results]
    rw [if_neg hemp]
    rw [if_pos ⟨hmin, hmax⟩]
  · intro vLoc vCnt vAvg vMed vStd vTop vBot vLim vMin vMax vRef vRefN
    rfl

set_option maxRecDepth 20000 in
/-- Witness for the amended C7 at a concrete one-row point-location frame. -/
theorem claim_C7_witness :
    (executorPostProcess [c7Row (str "POINT(-73.9 40.7)") (str "12")
        (str "3.1") (str "2.0") (str "1.4") (str "[]") (str "[]")
        (str "false") (str "2020-01-01") (str "2020-12-31")
        (str "BROOKLYN") (str "Astoria")]).1 =
      [c7Row (str "POINT(-73.9 40.7)") (str "12") (str "3.1") (str "2.0")
        (str "1.4") (str "[]") (str "[]") (str "false") (str "2020-01-01")
        (str "2020-12-31") (str "BROOKLYN") (str "Astoria")].map
        (fun row => row.filter (fun kv => !(str "metadata_").isPrefixOf kv.1)) :=
  (claim_C7_amended_metadata_extraction
    [c7Row (str "POINT(-73.9 40.7)") (str "12") (str "3.1") (str "2.0")
      (str "1.4") (str "[]") (str "[]") (str "false") (str "2020-01-01")
      (str "2020-12-31") (str "BROOKLYN") (str "Astoria")]
    (by decide)).1

/-! ## Claim C8: top-N ordering and the default row cap -/

/-- A top-N definition: top 10 complaint types. -/
def c8TopNExample : AggregationDefinition :=
  { dimensions := [str "complaint_type"]
  , measures := [⟨str "count(1)", str "num_of_requests"⟩]
  , topN := some ⟨[str "num_of_requests DESC"], 10⟩ }

/-- A definition without `topN` whose filter text happens to contain the
string `LIMIT`. -/
def c8LimitExample : AggregationDefinition :=
  { dimensions := []
  , measures := [⟨str "count(1)", str "num_of_requests"⟩]
  , preAggregationFilters := str "complaint_type = 'LIMIT EXCEEDED'" }

set_option maxRecDepth 20000 in
/-- Counterexample to C8 as stated: a definition without `topN` whose filter
text contains the substring `LIMIT` gets no default row cap — the compiled
SQL contains no `LIMIT 5000` clause. -/
theorem claim_C8_counterexample :
    strContains (generate_sql defaultSchema c8LimitExample (str "requests_311"))
      (str "LIMIT 5000") = false ∧
    strContains c8LimitExample.preAggregationFilters (str "LIMIT") = true := by
  exact ⟨by decide, by decide⟩

/-- C8 (amended).  With `topN` present the compiled SQL carries exactly
`ORDER BY {orderByKey} LIMIT {topN}` (top-N wins ordering precedence
regardless of time/measure presence) and — since that clause contains
`LIMIT` — the default-cap step appends nothing.  Without a `LIMIT` already
somewhere in the SQL text the default `LIMIT 5000` is appended; but whenever
the assembled text already contains the substring `LIMIT` anywhere (e.g.
inside filter text), the compiler skips the default cap, so a `LIMIT 5000`
clause is not guaranteed for every `topN`-free definition. -/
theorem claim_C8_amended_topn_and_default_cap
    (S : Schema) (defn : AggregationDefinition) (table_name : Str)
    (t : TopNDefinition) :
    (defn.topN = some t →
      (str "ORDER BY " ++ pyjoin (str ", ") t.orderByKey ++ str "\nLIMIT " ++
          intToStr t.topN <:+: sqlBeforeLimit S defn table_name) ∧
      (str "ORDER BY " ++ pyjoin (str ", ") t.orderByKey ++ str "\nLIMIT" <:+:
          generate_sql S defn table_name) ∧
      strContains (sqlBeforeLimit S defn table_name) (str "LIMIT") = true) ∧
    (strContains (sqlBeforeLimit S defn table_name) (str "LIMIT") = true →
      generate_sql S defn table_name =
        pystrip (if ¬(str ";").isSuffixOf
            (pystrip (sqlBeforeLimit S defn table_name)) then
          sqlBeforeLimit S defn table_name ++ str ";"
        else sqlBeforeLimit S defn table_name)) ∧
    (strContains (sqlBeforeLimit S defn table_name) (str "LIMIT") = false →
      strContains (generate_sql S defn table_name) (str "LIMIT 5000") = true) := by
  refine ⟨?_, ?_, ?_⟩
  · intro htop
    have horder : (_build_order_clause S defn).isEmpty = false := by
      simp only [_build_order_clause, htop]
      cases h : (str "ORDER BY " ++ pyjoin (str ", ") t.orderByKey ++
          str "\nLIMIT " ++ intToStr t.topN).isEmpty
      · rfl
      · rw [List.isEmpty_iff] at h
        rcases List.append_eq_nil.mp h with ⟨h1, -⟩
        rcases List.append_eq_nil.mp h1 with ⟨h2, -⟩
        rcases List.append_eq_nil.mp h2 with ⟨h3, -⟩
        exact absurd h3 (by decide)
    have hsqlBefore : str "ORDER BY " ++ pyjoin (str ", ") t.orderByKey ++
        str "\nLIMIT " ++ intToStr t.topN <:+: sqlBeforeLimit S defn table_name := by
      simp only [sqlBeforeLimit, _build_order_clause, htop] at horder ⊢
      rw [if_pos (by rw [horder]; simp)]
      exact (List.suffix_append _ _).isInfix
    have htokB : str "ORDER BY " ++ pyjoin (str ", ") t.orderByKey ++
        str "\nLIMIT" <+: str "ORDER BY " ++ pyjoin (str ", ") t.orderByKey ++
        str "\nLIMIT " ++ intToStr t.topN := by
      refine ⟨[' '] ++ intToStr t.topN, ?_⟩
      simp [show str "\nLIMIT " = str "\nLIMIT" ++ [' '] from rfl,
        List.append_assoc]
    have hlim : strContains (sqlBeforeLimit S defn table_name)
        (str "LIMIT") = true := by
      apply strContains_intro
      refine List.IsInfix.trans ?_ hsqlBefore
      exact ((by decide : str "LIMIT" <:+: str "\nLIMIT ").trans
        (List.infix_append _ _ _))
    refine ⟨hsqlBefore, ?_, hlim⟩
    refine infix_generate_sql_of_ends ?_ ?_ ?_ (htokB.isInfix.trans hsqlBefore)
    · exact List.append_ne_nil_of_right_ne_nil _ (by decide)
    · rw [show str "ORDER BY " = 'O' :: str "RDER BY " from rfl]
      rw [List.cons_append, List.cons_append, List.headD_cons]
      decide
    · rw [show str "\nLIMIT" = str "\nLIMI" ++ ['T'] from rfl,
        ← List.append_assoc, List.getLastD_concat]
      decide
  · intro hlim
    simp only [generate_sql, hlim, if_true]
  · intro hno
    simp only [generate_sql, hno, Bool.false_eq_true, if_false]
    have hinfix : str "LIMIT 5000" <:+:
        sqlBeforeLimit S defn table_name ++ str "\nLIMIT 5000" := by
      have : str "\nLIMIT 5000" = '\n' :: str "LIMIT 5000" := rfl
      rw [this]
      exact ((List.infix_cons (List.infix_refl _)).trans
        (List.suffix_append _ _).isInfix)
    apply strContains_intro
    refine infix_pystrip_of_ends (by decide) ?_ ?_ ?_
    · decide
    · decide
    · split
      · exact infix_extend hinfix _
      · exact hinfix

/-- Witness for the amended C8 at a concrete top-10 definition. -/
theorem claim_C8_witness :
    (str "ORDER BY " ++ pyjoin (str ", ") [str "num_of_requests DESC"] ++
        str "\nLIMIT " ++ intToStr 10 <:+:
      sqlBeforeLimit defaultSchema c8TopNExample (str "requests_311")) ∧
    strContains (sqlBeforeLimit defaultSchema c8TopNExample
      (str "requests_311")) (str "LIMIT") = true :=
  ⟨((claim_C8_amended_topn_and_default_cap defaultSchema c8TopNExample
      (str "requests_311") ⟨[str "num_of_requests DESC"], 10⟩).1 rfl).1,
   ((claim_C8_amended_topn_and_default_cap defaultSchema c8TopNExample
      (str "requests_311") ⟨[str "num_of_requests DESC"], 10⟩).1 rfl).2.2⟩

/-- Witness for the amended C5 at scenario B's concrete inputs. -/
theorem claim_C5_witness :
    get_viz_recommendations defaultSchema c5Example (some c5Stats) (some 36) =
      ([str "table", str "line_chart", str "stacked_area_chart",
        str "stacked_area_chart_100"], str "line_chart") :=
  claim_C5_amended_time_categorical_additive defaultSchema c5Example
    (str "created_month") (str "borough")
    ⟨str "count(1)", str "num_of_requests"⟩ (some c5Stats) (some 36)
    (Or.inl rfl) rfl (by decide) (by decide) (by decide) (by decide)
    (by decide) (by decide)
